import Mathlib

/-!
Shallow embedding of the `real_estate_scrapers` repository (Daft.ie scraper):
the headline price parser, the strict price-history parser, category
hierarchy building, the listing normalization engine
(`DaftRealEstateParser.get_real_estates`), the pagination loops of
`BaseScraper`, the dedup `DaftScraper.parse`, and the `RealEstate.add_price`
model operation.  Python `dict` records are embedded as structures of
`Option` fields (`none` = key absent / JSON null); Python exceptions are
embedded as `Except String`; mutation of the raw record by `dict.pop` is
embedded by returning the residual record alongside the parsed output.
-/

set_option maxRecDepth 10000

deriving instance DecidableEq for Except

/-! ## Python string primitives -/

/-- Python `\s` / `str.strip` whitespace (ASCII range, as used by the data). -/
def isPySpace (c : Char) : Bool :=
  c = ' ' || c = '\t' || c = '\n' || c = '\r' || c = Char.ofNat 11 || c = Char.ofNat 12

/-- Characters matched by the regex class `[\d,]`. -/
def digitOrComma (c : Char) : Bool := c.isDigit || c = ','

/-- Python `str.strip()`: drop leading and trailing whitespace. -/
def pyStrip (l : List Char) : List Char :=
  ((l.dropWhile isPySpace).reverse.dropWhile isPySpace).reverse

/-- Worker for `replaceAll`, with fuel = length of the remaining input.
Each step consumes at least one character (the patterns used are nonempty),
so the fuel never runs out before the input does. -/
def replaceAllAux (pat rep : List Char) : Nat → List Char → List Char
  | _, [] => []
  | 0, l => l
  | fuel + 1, c :: cs =>
    if pat.isPrefixOf (c :: cs) then
      rep ++ replaceAllAux pat rep fuel (List.drop pat.length (c :: cs))
    else
      c :: replaceAllAux pat rep fuel cs

/-- Python `str.replace(pat, rep)`: replace every occurrence, scanning left to
right without overlap. -/
def replaceAll (pat rep : List Char) (l : List Char) : List Char :=
  replaceAllAux pat rep l.length l

/-- Python `pat in s` (substring containment). -/
def containsSub (pat : List Char) : List Char → Bool
  | [] => pat.isEmpty
  | c :: cs => pat.isPrefixOf (c :: cs) || containsSub pat cs

/-- Worker for `splitWs`; `acc` holds the current token reversed. -/
def splitWsAux : List Char → List Char → List String
  | [], acc => if acc.isEmpty then [] else [String.mk acc.reverse]
  | c :: cs, acc =>
    if isPySpace c then
      if acc.isEmpty then splitWsAux cs [] else String.mk acc.reverse :: splitWsAux cs []
    else
      splitWsAux cs (c :: acc)

/-- Python `str.split()` with no argument: split on whitespace runs,
discarding empty tokens. -/
def splitWs (l : List Char) : List String :=
  splitWsAux l []

/-- Numeric value of a list of decimal digit characters. -/
def natOfDigits (ds : List Char) : Nat :=
  ds.foldl (fun acc c => 10 * acc + (c.toNat - 48)) 0

/-- Value of a nonempty all-digit character list, `none` otherwise. -/
def digitsVal? (l : List Char) : Option Nat :=
  if l ≠ [] ∧ l.all Char.isDigit then some (natOfDigits l) else none

/-- Python `int(token)` on a whitespace-free token: optional sign followed by
digits.  (Underscore digit grouping accepted by CPython is not modelled; no
input exercised here contains it.) -/
def pyInt? : List Char → Option Int
  | '+' :: rest => (digitsVal? rest).map Int.ofNat
  | '-' :: rest => (digitsVal? rest).map (fun n => -(n : Int))
  | rest => (digitsVal? rest).map Int.ofNat

/-- Unsigned decimal part of Python `float(token)`: digits with an optional
dot, at least one digit overall (exponent and `inf`/`nan` forms, absent from
this data, are not modelled). -/
def pyFloatCore (s : List Char) : Option ℚ :=
  let intPart := s.takeWhile Char.isDigit
  let rest := s.dropWhile Char.isDigit
  match rest with
  | [] => if intPart = [] then none else some (natOfDigits intPart)
  | '.' :: frac =>
    if frac.all Char.isDigit ∧ (intPart ≠ [] ∨ frac ≠ []) then
      some ((natOfDigits intPart : ℚ) + (natOfDigits frac : ℚ) / ((10 : ℚ) ^ frac.length))
    else none
  | _ => none

/-- Python `float(token)` on a whitespace-free token; `none` embeds
`ValueError`. -/
def pyFloat? : List Char → Option ℚ
  | '+' :: rest => pyFloatCore rest
  | '-' :: rest => (pyFloatCore rest).map Neg.neg
  | s => pyFloatCore s

/-- Python `str.upper()` on the ASCII data used here (character-list based so
that it reduces in the kernel, unlike `String.toUpper`). -/
def pyToUpper (s : String) : String :=
  String.mk (s.toList.map Char.toUpper)

/-- Case-insensitive literal match (the regexes are compiled with
`re.IGNORECASE`); returns the rest of the input on success. -/
def matchLitCI : List Char → List Char → Option (List Char)
  | [], cs => some cs
  | _ :: _, [] => none
  | l :: ls, c :: cs => if c.toLower = l then matchLitCI ls cs else none

/-! ## The headline price regex

`([€£]?)\s*(\d[\d,]*\.?\d*)\s*(per\s*(month|week))?` used with `re.match`
(anchored at the start, prefix match).  The regex is deterministic here: each
greedy piece is followed only by pieces that can match the empty string, and
a leading `€`/`£` that is not followed (after spaces) by a digit makes the
whole match fail with or without backtracking, so the transliteration below
commits greedily. -/

/-- Group 2, `\d[\d,]*\.?\d*`: leading digit, run of digits/commas, optional
dot with optional fraction digits.  Returns (captured text, rest). -/
def matchAmount : List Char → Option (List Char × List Char)
  | [] => none
  | c :: cs =>
    if c.isDigit then
      let run := cs.takeWhile digitOrComma
      let rest1 := cs.dropWhile digitOrComma
      match rest1 with
      | '.' :: rest2 =>
        some (c :: run ++ '.' :: rest2.takeWhile Char.isDigit, rest2.dropWhile Char.isDigit)
      | _ => some (c :: run, rest1)
    else none

/-- Group 3/4, `(per\s*(month|week))?`: returns group 4 (the unit text as it
appears in the input) when the optional group matches. -/
def matchFreq (cs : List Char) : Option (List Char) :=
  match matchLitCI ['p', 'e', 'r'] cs with
  | none => none
  | some rest =>
    let rest2 := rest.dropWhile isPySpace
    match matchLitCI ['m', 'o', 'n', 't', 'h'] rest2 with
    | some _ => some (rest2.take 5)
    | none =>
      match matchLitCI ['w', 'e', 'e', 'k'] rest2 with
      | some _ => some (rest2.take 4)
      | none => none

/-- Embedding of `regex.match` for the headline price regex: `(group 1 symbol?, group 2,
group 4?)`, or `none` when the regex does not match a prefix of the input. -/
def matchHeadline (cs : List Char) : Option (Option Char × List Char × Option (List Char)) :=
  let symSplit : Option Char × List Char :=
    match cs with
    | c :: rest => if c = '€' || c = '£' then (some c, rest) else (none, cs)
    | [] => (none, [])
  let afterWs := symSplit.2.dropWhile isPySpace
  match matchAmount afterWs with
  | none => none
  | some (amt, rest) => some (symSplit.1, amt, matchFreq (rest.dropWhile isPySpace))

/-- Result record of `DaftRealEstateParser.parse_price`. -/
structure PriceParse where
  price : Option Int
  frequency : Option String
  currency_symbol : Option String
deriving DecidableEq, Repr

def fromPat : List Char := "From ".toList

def amvPat : List Char := "AMV: ".toList

def poaLongPat : List Char := "Price on Application".toList

def poaShortPat : List Char := "POA".toList

namespace DaftRealEstateParser

/-- Embedding of `DaftRealEstateParser.parse_price` (src/scrapers/data_parsers.py:22-46).
`str.replace` removes every occurrence of `"From "` and `"AMV: "`; a price
whose regex amount contains a decimal point makes `int()` raise `ValueError`
(embedded as `.error`). -/
def parse_price (s : String) : Except String PriceParse :=
  let cs := replaceAll amvPat [] (replaceAll fromPat [] (pyStrip s.toList))
  if containsSub poaLongPat cs || containsSub poaShortPat cs then
    .ok ⟨none, none, none⟩
  else
    match matchHeadline cs with
    | none => .ok ⟨none, none, none⟩
    | some (sym, amt, freq) =>
      if amt.any (fun c => c = '.') then
        .error "ValueError: invalid literal for int()"
      else
        .ok ⟨some (natOfDigits (amt.filter (fun c => c ≠ ','))),
             some ((freq.map String.mk).getD "month"),
             some ((sym.map toString).getD "€")⟩

end DaftRealEstateParser

/-- Modelled from the claim C1 words (not from the source): the same parser
but stripping only a single leading `"From "` or `"AMV: "` prefix, for
comparison with `DaftRealEstateParser.parse_price` which replaces every
occurrence. -/
def parse_price_claimC1 (s : String) : Except String PriceParse :=
  let t := pyStrip s.toList
  let cs :=
    if fromPat.isPrefixOf t then t.drop 5
    else if amvPat.isPrefixOf t then t.drop 5
    else t
  if containsSub poaLongPat cs || containsSub poaShortPat cs then
    .ok ⟨none, none, none⟩
  else
    match matchHeadline cs with
    | none => .ok ⟨none, none, none⟩
    | some (sym, amt, freq) =>
      if amt.any (fun c => c = '.') then
        .error "ValueError: invalid literal for int()"
      else
        .ok ⟨some (natOfDigits (amt.filter (fun c => c ≠ ','))),
             some ((freq.map String.mk).getD "month"),
             some ((sym.map toString).getD "€")⟩

example : DaftRealEstateParser.parse_price "€1,200 per month" =
    .ok ⟨some 1200, some "month", some "€"⟩ := by decide

example : DaftRealEstateParser.parse_price "From €1,000" =
    .ok ⟨some 1000, some "month", some "€"⟩ := by decide

example : DaftRealEstateParser.parse_price "AMV: €250,000" =
    .ok ⟨some 250000, some "month", some "€"⟩ := by decide

example : DaftRealEstateParser.parse_price "POA" = .ok ⟨none, none, none⟩ := by decide

example : DaftRealEstateParser.parse_price "Price on Application" =
    .ok ⟨none, none, none⟩ := by decide

example : DaftRealEstateParser.parse_price "no price here" =
    .ok ⟨none, none, none⟩ := by decide

example : DaftRealEstateParser.parse_price "€1,200.50" =
    .error "ValueError: invalid literal for int()" := by decide

example : DaftRealEstateParser.parse_price "€1,200 per From week" =
    .ok ⟨some 1200, some "week", some "€"⟩ := by decide

example : parse_price_claimC1 "€1,200 per From week" =
    .ok ⟨some 1200, some "month", some "€"⟩ := by decide

/-! ## The strict money regex of models.py

`([€£$])?([\d,]+\.?\d*)` used with `re.search`: leftmost position where an
optional currency symbol is followed by at least one digit/comma.  A lone
symbol not followed by a digit or comma matches neither with the symbol
(group 2 needs a `[\d,]`) nor without it (the symbol itself is no `[\d,]`),
so the scan advances one character. -/

/-- Group 2 of the money regex at a position whose head is a digit or comma:
`[\d,]+\.?\d*` taken greedily. -/
def moneyGroup (l : List Char) : List Char :=
  let run := l.takeWhile digitOrComma
  match l.dropWhile digitOrComma with
  | '.' :: rest => run ++ '.' :: rest.takeWhile Char.isDigit
  | _ => run

/-- Embedding of `re.search` for the money regex: `(group 1 symbol?, group 2)`. -/
def searchMoney : List Char → Option (Option Char × List Char)
  | [] => none
  | c :: cs =>
    if c = '€' || c = '£' || c = '$' then
      match cs with
      | d :: _ => if digitOrComma d then some (some c, moneyGroup cs) else searchMoney cs
      | [] => none
    else if digitOrComma c then some (none, moneyGroup (c :: cs))
    else searchMoney cs

/-! ## Dates -/

/-- A Python `datetime` value as produced by this program: either
`datetime.fromtimestamp(ms / 1000)` from a millisecond `publishDate`, or
`datetime.strptime(s, "%d/%m/%Y")`.  The two families are never compared
with each other by the code along any value-affecting path (the `source`
field of `PriceHistory` already separates the entries being compared). -/
inductive PyDateTime where
  | fromTimestampMs (ms : Int)
  | strptimeDMY (day month year : Nat)
deriving DecidableEq, Repr

def isLeapYear (y : Nat) : Bool :=
  y % 4 = 0 && (y % 100 ≠ 0 || y % 400 = 0)

def daysInMonth (m y : Nat) : Nat :=
  if m = 1 || m = 3 || m = 5 || m = 7 || m = 8 || m = 10 || m = 12 then 31
  else if m = 4 || m = 6 || m = 9 || m = 11 then 30
  else if isLeapYear y then 29 else 28

/-- Split a character list at every occurrence of `sep`, keeping empties. -/
def splitChar (sep : Char) : List Char → List (List Char)
  | [] => [[]]
  | c :: cs =>
    let rest := splitChar sep cs
    if c = sep then [] :: rest
    else
      match rest with
      | r :: rs => (c :: r) :: rs
      | [] => [[c]]

/-- Embedding of `datetime.strptime(s, "%d/%m/%Y")`: day and month of one or two digits,
year of up to four digits, calendar-valid; `none` embeds `ValueError`. -/
def parseDMY (s : String) : Option (Nat × Nat × Nat) :=
  match splitChar '/' s.toList with
  | [ds, ms, ys] =>
    match digitsVal? ds, digitsVal? ms, digitsVal? ys with
    | some d, some m, some y =>
      if ds.length ≤ 2 ∧ ms.length ≤ 2 ∧ ys.length ≤ 4 ∧
          1 ≤ m ∧ m ≤ 12 ∧ 1 ≤ d ∧ d ≤ daysInMonth m y ∧ 1 ≤ y then
        some (d, m, y)
      else none
    | _, _, _ => none
  | _ => none

/-! ## models.py data classes -/

inductive RelaEstateAdvertEnum where
  | RENT
  | SALE
  | SHARE
  | SOLD
deriving DecidableEq, Repr

/-- A `Category`: name plus optional parent reference (models.py:98-104). -/
inductive Category where
  | mk (name : String) (parent : Option Category)

def Category.beq : Category → Category → Bool
  | .mk n₁ none, .mk n₂ none => n₁ == n₂
  | .mk n₁ (some p₁), .mk n₂ (some p₂) => n₁ == n₂ && Category.beq p₁ p₂
  | _, _ => false

theorem Category.beq_iff : ∀ a b : Category, Category.beq a b = true ↔ a = b
  | .mk n₁ none, .mk n₂ none => by simp [Category.beq]
  | .mk n₁ (some p₁), .mk n₂ (some p₂) => by
    have ih := Category.beq_iff p₁ p₂
    simp [Category.beq, ih]
  | .mk _ none, .mk _ (some _) => by simp [Category.beq]
  | .mk _ (some _), .mk _ none => by simp [Category.beq]

instance : DecidableEq Category := fun a b => decidable_of_iff _ (Category.beq_iff a b)

def Category.toStr : Category → String
  | .mk n none => n
  | .mk n (some p) => n ++ " < " ++ Category.toStr p

instance : Repr Category := ⟨fun c _ => .text (Category.toStr c)⟩

/-- The ancestor chain of a category node, leaf first: its own name followed
by the names along the parent pointers up to the root. -/
def Category.chainNames : Category → List String
  | .mk n none => [n]
  | .mk n (some p) => n :: Category.chainNames p

/-- The geocoding collaborator (geopy + cache), out of the core's scope:
`reverse` answers a reverse lookup for coordinates, `forward` answers a
forward lookup for a query string with found coordinates and an optional
address record.  `none` covers both "no location" and `GeocoderUnavailable`
on every geolocator. -/
structure GeoAddr where
  road : Option String := none
  city : Option String := none
  town : Option String := none
  village : Option String := none
  postcode : Option String := none
  county : Option String := none
  country : Option String := none
  region : Option String := none
deriving DecidableEq, Repr

structure GeoOracle where
  reverse : ℚ → ℚ → Option GeoAddr
  forward : String → Option (ℚ × ℚ × Option GeoAddr)

/-- Python `x or y` for an optional string `x` (both `None` and `""` are
falsy) against a string default. -/
def pyOrStr (x : Option String) (y : String) : String :=
  match x with
  | some s => if s = "" then y else s
  | none => y

/-- Python `x or y` with both sides optional strings. -/
def pyOrOpt (x y : Option String) : Option String :=
  match x with
  | some s => if s = "" then y else some s
  | none => y

structure Address where
  address1 : Option String := none
  address2 : Option String := none
  address3 : Option String := none
  address4 : Option String := none
  city : String := ""
  postal_code : String := ""
  county : String := ""
  country : String := ""
  latitude : ℚ := 0
  longitude : ℚ := 0
  local_authority : Option String := none
deriving DecidableEq, Repr

/-- Embedding of `Address._update_from_location` (models.py:179-186). -/
def updateFromLocation (a : Address) (d : GeoAddr) : Address :=
  { a with
    address1 := pyOrOpt d.road a.address1
    city := pyOrStr d.city (pyOrStr d.town (pyOrStr d.village a.city))
    postal_code := pyOrStr d.postcode a.postal_code
    county := pyOrStr d.county a.county
    country := pyOrStr d.country a.country
    local_authority := pyOrOpt d.region a.local_authority }

def truthyS : Option String → Bool
  | some s => s ≠ ""
  | none => false

/-- Embedding of `Address.__post_init__` / `fill_missing_data` (models.py:123-143):
the constructed address enriched by the geocoding collaborator.  Forward
geocoding first overwrites latitude/longitude when a location is found, then
merges the address record when one is present. -/
def mkAddress (geo : GeoOracle) (a : Address) : Address :=
  if a.latitude ≠ 0 && a.longitude ≠ 0 && !truthyS a.address1 then
    match geo.reverse a.latitude a.longitude with
    | some d => updateFromLocation a d
    | none => a
  else if truthyS a.address1 && a.latitude = 0 then
    match geo.forward (a.address1.getD "" ++ " Ireland") with
    | some (lat, lng, dOpt) =>
      let a2 := { a with latitude := lat, longitude := lng }
      match dOpt with
      | some d => updateFromLocation a2 d
      | none => a2
    | none => a
  else a

structure Seller where
  seller_id : Option Int := none
  name : Option String := none
  phone : Option String := none
  branch : Option String := none
  address : Option Address := none
  profile_image : Option String := none
  profile_rounded_image : Option String := none
  standard_logo : Option String := none
  square_logo : Option String := none
  background_colour : Option String := none
  seller_type : Option String := none
  available : Option Bool := none
deriving DecidableEq, Repr

structure RelaEstateImage where
  url : String
  size_name : String
deriving DecidableEq, Repr

structure Ber where
  rating : Option String := none
  code : Option String := none
  epi : Option String := none
deriving DecidableEq, Repr

/-- Raw `offers` sub-object (the keys `Offers.from_dict` reads). -/
structure OffersData where
  awaitingBidders : Option Int := none
  bookingDeposit : Option ℚ := none
  highestOffer : Option String := none
  makeOfferPrivate : Option Bool := none
  minimumIncrement : Option ℚ := none
  minimumOfferAmount : Option ℚ := none
  offersCount : Option Int := none
  status : Option String := none
deriving DecidableEq, Repr

structure Offers where
  awaiting_bidders : Int := 0
  booking_deposit : ℚ := 0
  highest_offer : Option ℚ := none
  highest_offer_currency : Option String := none
  make_offer_private : Bool := false
  minimum_increment : ℚ := 0
  minimum_offer_amount : ℚ := 0
  offers_count : Int := 0
  status : String := ""
deriving DecidableEq, Repr

namespace Offers

/-- Embedding of `Offers.parse_price` (models.py:59-69): lenient on no match, but
`float("")` on a regex match made of commas only raises `ValueError`. -/
def parse_price (s : String) : Except String (Option ℚ × Option String) :=
  match searchMoney s.toList with
  | none => .ok (none, none)
  | some (sym, g2) =>
    match pyFloat? (g2.filter (fun c => c ≠ ',')) with
    | some q => .ok (some q, sym.map toString)
    | none => .error "ValueError: could not convert string to float"

/-- Embedding of `Offers.from_dict` (models.py:71-88). -/
def from_dict (d : OffersData) : Except String Offers := do
  let (ho, hoc) ← parse_price (d.highestOffer.getD "")
  .ok { awaiting_bidders := d.awaitingBidders.getD 0
        booking_deposit := d.bookingDeposit.getD 0
        highest_offer := ho
        highest_offer_currency := hoc
        make_offer_private := d.makeOfferPrivate.getD false
        minimum_increment := d.minimumIncrement.getD 0
        minimum_offer_amount := d.minimumOfferAmount.getD 0
        offers_count := d.offersCount.getD 0
        status := d.status.getD "" }

end Offers

structure PriceHistory where
  price : Option Int
  timestamp : Option PyDateTime
  current : Bool := true
  source : Option String := none
  currency : Option String := some "€"
  category : Option RelaEstateAdvertEnum := some .RENT
deriving DecidableEq, Repr

/-- Raw embedded price-history entry (the keys `PriceHistory.from_dict`
reads; `none` on `price`/`date` embeds a missing key, a `KeyError`). -/
structure PriceHistoryData where
  price : Option String := none
  date : Option String := none
  direction : Option String := none
  priceDifference : Option String := none
  current : Option Bool := none
deriving DecidableEq, Repr

namespace PriceHistory

/-- Embedding of `PriceHistory.parse_price` (models.py:226-236): strict — no regex match
raises `ValueError`, and so does `int()` on a match containing a decimal
point or consisting of commas only. -/
def parse_price (s : String) : Except String (Int × String) :=
  match searchMoney s.toList with
  | none => .error ("Invalid price format: " ++ s)
  | some (sym, g2) =>
    let digits := g2.filter (fun c => c ≠ ',')
    if digits ≠ [] ∧ digits.all Char.isDigit then
      .ok (natOfDigits digits, (sym.map toString).getD "€")
    else
      .error "ValueError: invalid literal for int()"

/-- Embedding of `PriceHistory.from_dict` (models.py:238-258): direction-aware historical
price reconstruction. -/
def from_dict (d : PriceHistoryData) (category : Option RelaEstateAdvertEnum) :
    Except String PriceHistory := do
  if category = some .RENT ∨ category = some .SALE then
    let ps ← match d.price with
      | none => .error "KeyError: price"
      | some s => pure s
    let (p, cur) ← parse_price ps
    let ds ← match d.date with
      | none => .error "KeyError: date"
      | some s => pure s
    let t ← match parseDMY ds with
      | none => .error "ValueError: time data does not match format %d/%m/%Y"
      | some (dd, mm, yy) => pure (PyDateTime.strptimeDMY dd mm yy)
    let dirU := pyToUpper (d.direction.getD "")
    let (pd, _) ← parse_price (d.priceDifference.getD "€0")
    let real_price : Int :=
      if dirU = "DECREASE" then p + pd
      else if dirU = "INCREASE" then p - pd
      else p
    .ok { price := some real_price, timestamp := some t, currency := some cur,
          category := category, current := d.current.getD false, source := none }
  else
    .error "ValueError: Invalid category"

end PriceHistory

/-- Canonical listing entity (models.py:261-316).  Fields the normalization
engine never assigns (furnished, parking_spaces, …, all constant defaults)
are omitted; `Option` values record where the engine can leave Python
`None` in a field. -/
structure RealEstate where
  title : String := ""
  seo_title : String := ""
  publish_date : Option PyDateTime := none
  property_type : Option String := none
  price_history : List PriceHistory := []
  seller : Option Seller := none
  real_estate_images : List RelaEstateImage := []
  category : Option Category := none
  url : Option String := none
  date_of_construction : Option (String ⊕ Int) := none
  about : Option String := some ""
  sold : Bool := false
  advert_type : Option RelaEstateAdvertEnum := some .SALE
  ber : Option Ber := none
  address : Option Address := none
  brochure : Option String := none
  offers : Option Offers := none
  bedrooms : Option Int := none
  bathrooms : Option Int := none
  size_sq_m : Option ℚ := none
  floor_area_sq_m : Option String := none
  rent_payment_frequency : Option String := none
  developer_name : Option String := some ""
deriving DecidableEq, Repr

namespace RealEstate

/-- Embedding of `RealEstate.add_price` (models.py:318-323).  `now` stands for
`datetime.now()`, used when no timestamp is supplied. -/
def add_price (r : RealEstate) (price : Option Int) (timestamp : Option PyDateTime)
    (current : Bool) (source : Option String) (now : PyDateTime) : RealEstate :=
  { r with
    price_history :=
      r.price_history.map (fun ph => { ph with current := false }) ++
        [{ price := price, timestamp := some (timestamp.getD now),
           current := current, source := source }] }

end RealEstate

/-! ## Pure parser helpers of data_parsers.py -/

/-- Raw `seller` sub-object keys read by `parse_seller_info`. -/
structure SellerData where
  sellerId : Option Int := none
  name : Option String := none
  phone : Option String := none
  branch : Option String := none
  address : Option String := none
  profileImage : Option String := none
  profileRoundedImage : Option String := none
  standardLogo : Option String := none
  squareLogo : Option String := none
  backgroundColour : Option String := none
  sellerType : Option String := none
  sellerAvailable : Option Bool := none
deriving DecidableEq, Repr

/-- Raw `media` sub-object: a list of image dicts (each an ordered map from
size label to url), a brochure flag and a brochure list whose items carry an
optional url. -/
structure MediaData where
  images : Option (List (List (String × String))) := none
  hasBrochure : Option Bool := none
  brochure : Option (List (Option String)) := none
deriving DecidableEq, Repr

/-- Raw `ber` sub-object of a top-level listing. -/
structure BerData where
  rating : Option String := none
  code : Option String := none
  epi : Option String := none
deriving DecidableEq, Repr

/-- Raw `point` sub-object. -/
structure PointData where
  coordinates : Option (List ℚ) := none
deriving DecidableEq, Repr

/-- Raw `floorArea` sub-object. -/
structure FloorAreaData where
  value : Option String := none
deriving DecidableEq, Repr

namespace DaftRealEstateParser

/-- Embedding of `build_category_hierarchy` (data_parsers.py:48-66): builds the chain
leaf-last and returns the *last* node created (`None` for an empty list),
despite its docstring promising the root. -/
def build_category_hierarchy (names : List String) : Option Category :=
  names.foldl (fun parent name => some (Category.mk name parent)) none

/-- Embedding of `parse_seller_info` (data_parsers.py:68-89); an empty or missing address
string yields no owned Address (Python truthiness). -/
def parse_seller_info (geo : GeoOracle) (d : SellerData) : Seller :=
  { seller_id := d.sellerId
    name := d.name
    phone := d.phone
    branch := d.branch
    address :=
      match d.address with
      | some a => if a ≠ "" then some (mkAddress geo { address1 := some a }) else none
      | none => none
    profile_image := d.profileImage
    profile_rounded_image := d.profileRoundedImage
    standard_logo := d.standardLogo
    square_logo := d.squareLogo
    background_colour := d.backgroundColour
    seller_type := d.sellerType
    available := d.sellerAvailable }

/-- Embedding of `parse_advert_type` (data_parsers.py:91-107). -/
def parse_advert_type (c : String) : Option RelaEstateAdvertEnum :=
  if c = "Buy" then some .SALE
  else if c = "Holiday Homes" then some .RENT
  else if c = "Share" then some .SHARE
  else if c = "Rent" then some .RENT
  else if c = "New Homes" then some .SALE
  else if c = "Sold" then some .SOLD
  else none

/-- Embedding of `parse_ber_info` (data_parsers.py:109-120).  (A present-but-empty
`ber` dict, falsy in Python, is not distinguished from an absent one.) -/
def parse_ber_info : Option BerData → Option Ber
  | some d => some ⟨d.rating, d.code, d.epi⟩
  | none => none

/-- Flatten one list of image dicts the way both `parse_media_data` and the
sub-unit branches do: one `RelaEstateImage` per size entry, in order. -/
def imagesOf (imgs : List (List (String × String))) : List RelaEstateImage :=
  imgs.flatMap (fun img => img.map (fun p => RelaEstateImage.mk p.2 p.1))

/-- Embedding of `parse_media_data` (data_parsers.py:122-140). -/
def parse_media_data (m : MediaData) : List RelaEstateImage × Option String :=
  let images := imagesOf (m.images.getD [])
  let brochure :=
    if m.hasBrochure.getD false then
      match m.brochure with
      | some (b :: _) => b
      | some [] => none
      | none => none
    else none
  (images, brochure)

/-- Embedding of `parse_price_history` (data_parsers.py:142-161): headline price string to
the primary `PriceHistory` entry plus the rent frequency.  A `None` price
(missing `price` key upstream) raises `AttributeError` on `.strip()`. -/
def parse_price_history (price_data : Option String) (publish_date : Option PyDateTime)
    (advert_type : Option RelaEstateAdvertEnum) :
    Except String (PriceHistory × Option String) := do
  match price_data with
  | none => .error "AttributeError: NoneType has no attribute strip"
  | some ps =>
    let pd ← parse_price ps
    .ok ({ price := pd.price, currency := pd.currency_symbol, timestamp := publish_date,
           source := some "daft", category := advert_type, current := true },
         pd.frequency)

/-- Embedding of `parse_address_info` (data_parsers.py:163-173): latitude is coordinate 1,
longitude coordinate 0; a missing or too-short coordinates array raises. -/
def parse_address_info (geo : GeoOracle) (p : PointData) : Except String Address :=
  match p.coordinates with
  | none => .error "TypeError: NoneType is not subscriptable"
  | some cs =>
    match cs.get? 1, cs.get? 0 with
    | some lat, some lng => .ok (mkAddress geo { latitude := lat, longitude := lng })
    | _, _ => .error "IndexError: list index out of range"

/-- Embedding of `parse_bedbathrooms` (data_parsers.py:175-193). -/
def parse_bedbathrooms : Option String → Option Int
  | none => none
  | some s =>
    if s = "" then none
    else
      let t :=
        replaceAll ",".toList " ".toList
          (replaceAll "Twin".toList "1".toList
            (replaceAll "Shared".toList "1".toList
              (replaceAll "Single".toList "1".toList
                (replaceAll "Double".toList "2".toList s.toList))))
      match splitWs t with
      | [] => none
      | tok :: _ => pyInt? tok.toList

end DaftRealEstateParser

example : DaftRealEstateParser.parse_bedbathrooms (some "Double") = some 2 := by decide

example : DaftRealEstateParser.parse_bedbathrooms (some "3 Bed") = some 3 := by decide

example : DaftRealEstateParser.parse_bedbathrooms (some "") = none := by decide

example : DaftRealEstateParser.parse_bedbathrooms none = none := by decide

example : DaftRealEstateParser.parse_bedbathrooms (some "studio flat") = none := by decide

example : PriceHistory.parse_price "€39,500" = .ok (39500, "€") := by decide

example : PriceHistory.from_dict
    { price := some "€200,000", date := some "13/05/2021",
      direction := some "DECREASE", priceDifference := some "€20,000" }
    (some .SALE) =
    .ok { price := some 220000, timestamp := some (.strptimeDMY 13 5 2021),
          currency := some "€", category := some .SALE, current := false,
          source := none } := by decide

/-! ## Raw listing records

One structure field per key that `get_real_estates` reads; `none` embeds an
absent key (or a JSON `null`).  The presentational keys popped by
`poped_keywords` are never read afterwards and are not modelled. -/

/-- Raw `ber` dict of a sub-unit: `unit.get("ber").pop("rating")` needs the
dict present (else `AttributeError`) and the key present (else `KeyError`),
so the rating is doubly optional: outer `none` = key absent, inner value =
the stored rating (possibly JSON null). -/
structure RawUnitBer where
  rating : Option (Option String) := none
deriving DecidableEq, Repr

structure RawUnit where
  media : Option MediaData := none
  numBedrooms : Option String := none
  numBathrooms : Option String := none
  price : Option String := none
  seoFriendlyPath : Option String := none
  propertyType : Option String := none
  ber : Option RawUnitBer := none
deriving DecidableEq, Repr

/-- Raw `prs` sub-object; `tagLine` is popped without a default, so only its
presence matters. -/
structure RawPrs where
  subUnits : Option (List RawUnit) := none
  tagLinePresent : Bool := false
  location : Option String := none
  brochure : Option String := none
  aboutDevelopment : Option String := none
deriving DecidableEq, Repr

structure RawNewHome where
  subUnits : Option (List RawUnit) := none
  developmentName : Option String := none
  about : Option String := none
  brochure : Option String := none
deriving DecidableEq, Repr

structure RawListing where
  seoFriendlyPath : Option String := none
  title : Option String := none
  seoTitle : Option String := none
  seller : Option SellerData := none
  media : Option MediaData := none
  category : Option String := none
  point : Option PointData := none
  ber : Option BerData := none
  publishDate : Option Int := none
  price : Option String := none
  soldPrice : Option String := none
  soldDate : Option String := none
  floorArea : Option FloorAreaData := none
  sections : Option (List String) := none
  numBedrooms : Option String := none
  numBathrooms : Option String := none
  offers : Option OffersData := none
  propertySize : Option String := none
  dateOfConstruction : Option String := none
  priceHistory : Option (List PriceHistoryData) := none
  propertyType : Option String := none
  prs : Option RawPrs := none
  newHome : Option RawNewHome := none
deriving DecidableEq, Repr

/-- One element of the upstream `listings` array; `item.get("listing", {})`
turns an absent `listing` key into an empty record. -/
structure RawItem where
  listing : Option RawListing := none
deriving DecidableEq, Repr

def siteOrigin : String := "https://www.daft.ie"

/-! ## The normalization engine (`get_real_estates`) -/

/-- Everything `get_real_estates` computes for one admitted record before the
structural branch (data_parsers.py:237-305). -/
structure ParsedCommon where
  seller : Seller
  images : List RelaEstateImage
  brochure : Option String
  advert_type : Option RelaEstateAdvertEnum
  address : Option Address
  ber : Option Ber
  publish_date : Option PyDateTime
  rent_payment_frequency : Option String
  price_history : List PriceHistory
  floor_area : Option String
  category : Option Category
  bedrooms : Option Int
  bathrooms : Option Int
  offers : Option Offers
  property_size : Option ℚ
  date_of_construction : Option (String ⊕ Int)
  property_type : Option String
deriving Repr

/-- Embedding of `pop` of a key without a default / attribute access on a possibly-`None`
value: the absent case raises. -/
def popOrErr {α : Type} (msg : String) : Option α → Except String α
  | none => .error msg
  | some v => pure v

/-- The address step of the pre-branch body (data_parsers.py:244-250). -/
def addressStep (geo : GeoOracle) (l : RawListing) (advert_type : Option RelaEstateAdvertEnum)
    (title : String) : Except String (Option Address) :=
  match l.point with
  | some p => (DaftRealEstateParser.parse_address_info geo p).map some
  | none =>
    if advert_type = some .SOLD then
      pure (some (mkAddress geo { address1 := some title }))
    else
      pure none

/-- The sold-price step (data_parsers.py:264-268): when both `soldPrice` and
`soldDate` are truthy, the sold entry is parsed and appended. -/
def soldStep (l : RawListing) (ph1 : List PriceHistory)
    (advert_type : Option RelaEstateAdvertEnum) : Except String (List PriceHistory) :=
  match l.soldPrice, l.soldDate with
  | some sp, some sd =>
    if sp ≠ "" ∧ sd ≠ "" then
      match parseDMY sd with
      | none => .error "ValueError: time data does not match format %d/%m/%Y"
      | some (dd, mm, yy) =>
        (DaftRealEstateParser.parse_price_history (some sp)
          (some (PyDateTime.strptimeDMY dd mm yy)) advert_type).map
          (fun r => ph1 ++ [r.1])
    else pure ph1
  | _, _ => pure ph1

/-- The offers step (data_parsers.py:280-283). -/
def offersStep (l : RawListing) : Except String (Option Offers) :=
  match l.offers with
  | some od => (Offers.from_dict od).map some
  | none => pure none

/-- The property-size step (data_parsers.py:285-290): `float` failure is
caught (`none`), but `split()` of an all-whitespace string leaves nothing to
index — an uncaught `IndexError`. -/
def propertySizeStep (l : RawListing) : Except String (Option ℚ) :=
  match l.propertySize with
  | none => pure none
  | some s =>
    match splitWs s.toList with
    | [] => .error "IndexError: list index out of range"
    | tok :: _ => pure (pyFloat? tok.toList)

/-- The construction-date step (data_parsers.py:292-297). -/
def docStep (l : RawListing) : Option (String ⊕ Int) :=
  match l.dateOfConstruction with
  | none => none
  | some s =>
    if s = "" then some (.inl s)
    else if s = "NA" then none
    else
      match digitsVal? s.toList with
      | some n => some (.inr (n : Int))
      | none => some (.inl s)

/-- The embedded-history merge (data_parsers.py:299-303): strict parse of
each entry, appended unless already present by value. -/
def historyStep (l : RawListing) (advert_type : Option RelaEstateAdvertEnum)
    (ph2 : List PriceHistory) : Except String (List PriceHistory) :=
  (l.priceHistory.getD []).foldlM
    (fun acc pdata => do
      let old ← PriceHistory.from_dict pdata advert_type
      if old ∈ acc then pure acc else pure (acc ++ [old]))
    ph2

/-- The pre-branch body of `get_real_estates` for one admitted record, in
source order; each Python exception surfaces as `.error`. -/
def parseCommon (geo : GeoOracle) (l : RawListing) (title : String) :
    Except String ParsedCommon := do
  let seller := DaftRealEstateParser.parse_seller_info geo (l.seller.getD {})
  let mediaParsed := DaftRealEstateParser.parse_media_data (l.media.getD {})
  let advert_type := DaftRealEstateParser.parse_advert_type (l.category.getD "")
  let address ← addressStep geo l advert_type title
  let ber := DaftRealEstateParser.parse_ber_info l.ber
  let publish_date := l.publishDate.map PyDateTime.fromTimestampMs
  let headParsed ← DaftRealEstateParser.parse_price_history l.price publish_date advert_type
  let ph2 ← soldStep l [headParsed.1] advert_type
  let floor_area := l.floorArea.bind FloorAreaData.value
  let category := DaftRealEstateParser.build_category_hierarchy (l.sections.getD [])
  let bedrooms := DaftRealEstateParser.parse_bedbathrooms l.numBedrooms
  let bathrooms := DaftRealEstateParser.parse_bedbathrooms l.numBathrooms
  let offers ← offersStep l
  let property_size ← propertySizeStep l
  let price_history ← historyStep l advert_type ph2
  pure { seller, images := mediaParsed.1, brochure := mediaParsed.2, advert_type, address,
         ber, publish_date, rent_payment_frequency := headParsed.2, price_history,
         floor_area, category, bedrooms, bathrooms, offers, property_size,
         date_of_construction := docStep l, property_type := l.propertyType }

/-- Per-unit data extracted inside either sub-unit branch. -/
structure UnitInfo where
  images : List RelaEstateImage
  bedrooms : Option Int
  bathrooms : Option Int
  ph : PriceHistory
  freq : Option String
  path : Option String
  property_type : Option String
  rating : Option String
deriving Repr

/-- One `prs` sub-unit (data_parsers.py:315-330), in source order. -/
def prsUnitInfo (publish_date : Option PyDateTime) (advert_type : Option RelaEstateAdvertEnum)
    (u : RawUnit) : Except String UnitInfo := do
  let media ← popOrErr "KeyError: media" u.media
  let bedrooms := DaftRealEstateParser.parse_bedbathrooms u.numBedrooms
  let bathrooms := DaftRealEstateParser.parse_bedbathrooms u.numBathrooms
  let priced ← DaftRealEstateParser.parse_price_history u.price publish_date advert_type
  let path ← popOrErr "KeyError: seoFriendlyPath" u.seoFriendlyPath
  let ub ← popOrErr "AttributeError: NoneType has no attribute pop" u.ber
  let rating ← popOrErr "KeyError: rating" ub.rating
  pure { images := DaftRealEstateParser.imagesOf (media.images.getD []), bedrooms, bathrooms,
         ph := priced.1, freq := priced.2, path := some path,
         property_type := u.propertyType, rating }

/-- One `newHome` sub-unit (data_parsers.py:384-397), in source order: no
sub-unit url is taken, and the price is read with `get` (not popped). -/
def newHomeUnitInfo (publish_date : Option PyDateTime) (advert_type : Option RelaEstateAdvertEnum)
    (u : RawUnit) : Except String UnitInfo := do
  let media ← popOrErr "KeyError: media" u.media
  let ub ← popOrErr "AttributeError: NoneType has no attribute pop" u.ber
  let rating ← popOrErr "KeyError: rating" ub.rating
  let bedrooms := DaftRealEstateParser.parse_bedbathrooms u.numBedrooms
  let bathrooms := DaftRealEstateParser.parse_bedbathrooms u.numBathrooms
  let priced ← DaftRealEstateParser.parse_price_history u.price publish_date advert_type
  pure { images := DaftRealEstateParser.imagesOf (media.images.getD []), bedrooms, bathrooms,
         ph := priced.1, freq := priced.2, path := none,
         property_type := u.propertyType, rating }

/-- The `RealEstate` built for one `prs` sub-unit.  All units of one record
share the parent's single mutable `Ber` object, whose `rating` was last
assigned from the *last* unit — so every emitted listing carries `finalBer`,
not its own unit's rating. -/
def prsListing (title seoTitle : String) (c : ParsedCommon) (prs : RawPrs)
    (finalBer : Option Ber) (info : UnitInfo) : RealEstate :=
  { title := title
    seo_title := seoTitle
    publish_date := c.publish_date
    property_type := info.property_type
    ber := finalBer
    rent_payment_frequency := info.freq
    price_history := [info.ph]
    seller := some c.seller
    real_estate_images := info.images
    brochure := prs.brochure
    category := c.category
    url := info.path.map (fun p => siteOrigin ++ p)
    date_of_construction := c.date_of_construction
    about := prs.aboutDevelopment
    sold := false
    advert_type := c.advert_type
    address := c.address
    bedrooms := info.bedrooms
    bathrooms := info.bathrooms
    size_sq_m := c.property_size
    floor_area_sq_m := c.floor_area
    offers := c.offers
    developer_name := some "" }

/-- The `RealEstate` built for one `newHome` sub-unit: it keeps the parent's
url and carries the development name; the shared-`Ber` aliasing is the same
as in the `prs` branch. -/
def newHomeListing (title seoTitle url : String) (c : ParsedCommon) (nh : RawNewHome)
    (finalBer : Option Ber) (info : UnitInfo) : RealEstate :=
  { title := title
    seo_title := seoTitle
    publish_date := c.publish_date
    property_type := info.property_type
    ber := finalBer
    rent_payment_frequency := info.freq
    price_history := [info.ph]
    seller := some c.seller
    real_estate_images := info.images
    brochure := nh.brochure
    category := c.category
    url := some url
    date_of_construction := c.date_of_construction
    about := nh.about
    sold := false
    advert_type := c.advert_type
    address := c.address
    bedrooms := info.bedrooms
    bathrooms := info.bathrooms
    size_sq_m := c.property_size
    floor_area_sq_m := c.floor_area
    offers := c.offers
    developer_name := nh.developmentName }

/-- The single `RealEstate` of the flat branch (data_parsers.py:427-453). -/
def flatListing (title seoTitle url : String) (c : ParsedCommon) : RealEstate :=
  { title := title
    seo_title := seoTitle
    publish_date := c.publish_date
    property_type := c.property_type
    ber := c.ber
    rent_payment_frequency := c.rent_payment_frequency
    price_history := c.price_history
    seller := some c.seller
    real_estate_images := c.images
    brochure := c.brochure
    category := c.category
    url := some url
    date_of_construction := c.date_of_construction
    sold := c.advert_type == some .SOLD
    advert_type := c.advert_type
    address := c.address
    bedrooms := c.bedrooms
    bathrooms := c.bathrooms
    size_sq_m := c.property_size
    floor_area_sq_m := c.floor_area
    offers := c.offers }

/-- The `prs.subUnits` branch (data_parsers.py:307-375): popping `tagLine`
without a default first, then one listing per sub-unit; with at least one
unit the parent `Ber` must exist (`ber.rating = ...` on `None` raises) and
every emitted listing shares it with the last unit's rating. -/
def emitPrs (title seoTitle : String) (c : ParsedCommon) (prs : RawPrs)
    (units : List RawUnit) : Except String (List RealEstate) := do
  if prs.tagLinePresent then
    let infos ← units.mapM (prsUnitInfo c.publish_date c.advert_type)
    match infos with
    | [] => pure []
    | i0 :: irest =>
      match c.ber with
      | none => .error "AttributeError: NoneType has no attribute rating"
      | some b =>
        pure ((i0 :: irest).map
          (prsListing title seoTitle c prs (some { b with rating := (irest.getLastD i0).rating })))
  else
    .error "KeyError: tagLine"

/-- The `newHome.subUnits` branch (data_parsers.py:377-425). -/
def emitNewHome (title seoTitle url : String) (c : ParsedCommon) (nh : RawNewHome)
    (units : List RawUnit) : Except String (List RealEstate) := do
  let infos ← units.mapM (newHomeUnitInfo c.publish_date c.advert_type)
  match infos with
  | [] => pure []
  | i0 :: irest =>
    match c.ber with
    | none => .error "AttributeError: NoneType has no attribute rating"
    | some b =>
      pure ((i0 :: irest).map (newHomeListing title seoTitle url c nh
        (some { b with rating := (irest.getLastD i0).rating })))

/-- The `newHome`-or-flat tail of the structural branch. -/
def emitNonPrs (title seoTitle url : String) (c : ParsedCommon) (l : RawListing) :
    Except String (List RealEstate) :=
  match l.newHome with
  | some nh =>
    match nh.subUnits with
    | some units => emitNewHome title seoTitle url c nh units
    | none => .ok [flatListing title seoTitle url c]
  | none => .ok [flatListing title seoTitle url c]

/-- The structural branch (data_parsers.py:307-453): `prs.subUnits` first,
then `newHome.subUnits`, then the flat single listing. -/
def emitListings (title seoTitle url : String) (c : ParsedCommon) (l : RawListing) :
    Except String (List RealEstate) :=
  match l.prs with
  | some prs =>
    match prs.subUnits with
    | some units => emitPrs title seoTitle c prs units
    | none => emitNonPrs title seoTitle url c l
  | none => emitNonPrs title seoTitle url c l

/-- The record after all the `pop` calls of the pre-branch body: every popped
top-level key removed. -/
def residualCommon (l : RawListing) : RawListing :=
  { l with seoFriendlyPath := none, title := none, seoTitle := none, seller := none,
           media := none, category := none, point := none, ber := none,
           publishDate := none, price := none, soldPrice := none, soldDate := none,
           floorArea := none, sections := none, numBedrooms := none,
           numBathrooms := none, offers := none, propertySize := none,
           dateOfConstruction := none, priceHistory := none, propertyType := none }

/-- Residual of the `newHome`-or-flat tail: the `newHome` sub-object keeps
its dict but loses every popped key when its branch ran. -/
def nonPrsResidual (base : RawListing) (l : RawListing) : RawListing :=
  match l.newHome with
  | some nh =>
    match nh.subUnits with
    | some _ => { base with newHome := some {} }
    | none => base
  | none => base

/-- The mutated raw record left behind by one admitted record: Python pops
mutate the caller's dict in place; the residual is what a second pass over
the same object would see. -/
def residualOf (l : RawListing) : RawListing :=
  let base := residualCommon l
  match l.prs with
  | some prs =>
    match prs.subUnits with
    | some _ => { base with prs := some {} }
    | none => nonPrsResidual base l
  | none => nonPrsResidual base l

/-- One iteration of the `for one_data in category_data` loop
(data_parsers.py:200-453): emitted listings, updated `parsed_urls`, and the
mutated raw item. -/
def processRecord (geo : GeoOracle) (seen : List String) (item : RawItem) :
    Except String (List RealEstate × List String × RawItem) :=
  let ld := item.listing.getD {}
  match ld.seoFriendlyPath with
  | none => .ok ([], seen, item)
  | some path =>
    match ld.title with
    | none => .ok ([], seen, item)
    | some title =>
      let url := siteOrigin ++ path
      if url ∈ seen then
        .ok ([], seen, { listing := some { ld with seoFriendlyPath := none } })
      else
        match ld.seoTitle with
        | none => .error "KeyError: seoTitle"
        | some seoTitle => do
          let seen2 := url :: seen
          let c ← parseCommon geo ld title
          let out ← emitListings title seoTitle url c ld
          pure (out, seen2, { listing := some (residualOf ld) })

/-- The inner loop over one category's items, threading `parsed_urls`. -/
def processItems (geo : GeoOracle) :
    List String → List RawItem → Except String (List RealEstate × List String × List RawItem)
  | seen, [] => .ok ([], seen, [])
  | seen, it :: rest => do
    let (out1, seen1, r1) ← processRecord geo seen it
    let (out2, seen2, r2) ← processItems geo seen1 rest
    pure (out1 ++ out2, seen2, r1 :: r2)

/-- The outer loop over categories. -/
def processCategories (geo : GeoOracle) :
    List String → List (String × List RawItem) →
      Except String (List RealEstate × List String × List (String × List RawItem))
  | seen, [] => .ok ([], seen, [])
  | seen, (cat, items) :: rest => do
    let (out1, seen1, r1) ← processItems geo seen items
    let (out2, seen2, r2) ← processCategories geo seen1 rest
    pure (out1 ++ out2, seen2, (cat, r1) :: r2)

namespace DaftRealEstateParser

/-- Embedding of `get_real_estates` (data_parsers.py:195-455): normalization of a whole
scraped data set, with a fresh in-batch `parsed_urls`; the second component
is the mutated input left behind by the pops. -/
def get_real_estates (geo : GeoOracle) (data : List (String × List RawItem)) :
    Except String (List RealEstate × List (String × List RawItem)) :=
  (processCategories geo [] data).map (fun r => (r.1, r.2.2))

end DaftRealEstateParser

/-- A geocoding collaborator that never answers — the environment for every
concrete evaluation below that does not construct a geocoded address. -/
def geoNone : GeoOracle where
  reverse := fun _ _ => none
  forward := fun _ => none

def recFlat : RawItem :=
  { listing := some { seoFriendlyPath := some "/for-sale/house-1", title := some "House 1",
                      seoTitle := some "house-1", price := some "€300,000" } }

example :
    (DaftRealEstateParser.get_real_estates geoNone [("residential-for-sale", [recFlat])]).map
      (fun r => r.1.length) = .ok 1 := by decide

example :
    (DaftRealEstateParser.get_real_estates geoNone [("residential-for-sale", [recFlat])]).map
      (fun r => r.1.map RealEstate.url) =
    .ok [some "https://www.daft.ie/for-sale/house-1"] := by decide

/-! ## `DaftScraper.parse` (daft_scraper.py:111-127) -/

/-- The per-item id used for dedup: the item's `seoFriendlyPath` segment
(possibly `None`). -/
def idOf (item : RawItem) : Option String :=
  (item.listing.getD {}).seoFriendlyPath

namespace DaftScraper

/-- Embedding of `DaftScraper.parse`: filter the listings array against `ignore_ids`,
appending each admitted item's id to the (caller-owned, mutated) list. -/
def parse : List RawItem → List (Option String) → List RawItem × List (Option String)
  | [], ign => ([], ign)
  | it :: rest, ign =>
    let cid := idOf it
    if cid ∈ ign then parse rest ign
    else
      let r := parse rest (ign ++ [cid])
      (it :: r.1, r.2)

end DaftScraper

/-! ## `BaseScraper` pagination (base_scraper.py:40-100)

`scrape_page` fetches (with its unbounded network-retry loop) and parses one
page; for the loop structure under verification it is an abstract stateful
page source `f : Nat → σ → List α × σ`, where `σ` threads the caller-owned
`ignore_ids` state that `parse` mutates.  The unbounded `while True` of
`scrape_all_pages` is given fuel; any fuel larger than the index of the
first empty page gives the loop's exact result. -/

/-- The state after fetching `n` consecutive pages starting at `page`. -/
def runFrom {σ α : Type} (f : Nat → σ → List α × σ) (page : Nat) (s : σ) : Nat → σ
  | 0 => s
  | n + 1 => runFrom f (page + 1) (f page s).2 n

/-- The data of the `j`-th page (0-based) fetched after starting at `page`
in state `s`, with all earlier pages' state mutations applied. -/
def pageDataFrom {σ α : Type} (f : Nat → σ → List α × σ) (page : Nat) (s : σ) (j : Nat) :
    List α :=
  (f (page + j) (runFrom f page s j)).1

/-- The concatenation of `n` consecutive pages starting at `page`. -/
def concatPages {σ α : Type} (f : Nat → σ → List α × σ) (page : Nat) (s : σ) : Nat → List α
  | 0 => []
  | n + 1 => (f page s).1 ++ concatPages f (page + 1) (f page s).2 n

/-- The `while True` loop of `scrape_all_pages`, also recording which page
indices were fetched.  `none` only when the fuel runs out first. -/
def scrapeAllPagesAux {σ α : Type} (f : Nat → σ → List α × σ) :
    Nat → Nat → σ → Option (List α × List Nat × σ)
  | 0, _, _ => none
  | fuel + 1, page, s =>
    let r := f page s
    if r.1.isEmpty then some ([], [page], r.2)
    else (scrapeAllPagesAux f fuel (page + 1) r.2).map
      (fun q => (r.1 ++ q.1, page :: q.2.1, q.2.2))

/-- The `for page in range(start_page, end_page + 1)` loop of `scrape_pages`
over an explicit page list, also recording fetched page indices. -/
def scrapePagesAux {σ α : Type} (f : Nat → σ → List α × σ) :
    List Nat → σ → List α × List Nat × σ
  | [], s => ([], [], s)
  | p :: ps, s =>
    let r := f p s
    if r.1.isEmpty then ([], [p], r.2)
    else
      let q := scrapePagesAux f ps r.2
      (r.1 ++ q.1, p :: q.2.1, q.2.2)

namespace BaseScraper

/-- Embedding of `scrape_all_pages` (base_scraper.py:83-100): pages from 1 upward until
the first page with no (new) raw listings. -/
def scrape_all_pages {σ α : Type} (f : Nat → σ → List α × σ) (fuel : Nat) (s : σ) :
    Option (List α × List Nat × σ) :=
  scrapeAllPagesAux f fuel 1 s

/-- Embedding of `scrape_pages` (base_scraper.py:64-81): the bounded variant over
`range(start_page, end_page + 1)` with the same empty-page break. -/
def scrape_pages {σ α : Type} (f : Nat → σ → List α × σ) (start_page end_page : Nat) (s : σ) :
    List α × List Nat × σ :=
  scrapePagesAux f (List.range' start_page (end_page + 1 - start_page)) s

end BaseScraper

theorem pageDataFrom_succ {σ α : Type} (f : Nat → σ → List α × σ) (page : Nat) (s : σ)
    (j : Nat) : pageDataFrom f page s (j + 1) = pageDataFrom f (page + 1) (f page s).2 j := by
  unfold pageDataFrom
  have h1 : runFrom f page s (j + 1) = runFrom f (page + 1) (f page s).2 j := rfl
  rw [h1]
  congr 2
  omega

theorem scrapeAllPagesAux_spec {σ α : Type} (f : Nat → σ → List α × σ) :
    ∀ (n page : Nat) (s : σ) (fuel : Nat),
      (∀ j, j < n → pageDataFrom f page s j ≠ []) →
      pageDataFrom f page s n = [] →
      n + 1 ≤ fuel →
      scrapeAllPagesAux f fuel page s =
        some (concatPages f page s n, List.range' page (n + 1), runFrom f page s (n + 1)) := by
  intro n
  induction n with
  | zero =>
    intro page s fuel _ hempty hfuel
    match fuel, hfuel with
    | fuel + 1, _ =>
      have h0 : (f page s).1 = [] := hempty
      simp [scrapeAllPagesAux, h0, concatPages, List.range', runFrom]
  | succ n ih =>
    intro page s fuel hne hempty hfuel
    match fuel, hfuel with
    | fuel + 1, hfuel =>
      have h0 : (f page s).1 ≠ [] := hne 0 (Nat.succ_pos n)
      have hrec := ih (page + 1) (f page s).2 fuel
        (fun j hj => by
          have := hne (j + 1) (Nat.succ_lt_succ hj)
          rwa [pageDataFrom_succ] at this)
        (by rw [← pageDataFrom_succ]; exact hempty)
        (Nat.lt_succ_iff.mp hfuel)
      have h0b : (f page s).1.isEmpty = false := by
        cases hq : (f page s).1 with
        | nil => exact absurd hq h0
        | cons a l => rfl
      simp only [scrapeAllPagesAux, h0b, Bool.false_eq_true, if_false, hrec, Option.map_some]
      have hc : concatPages f page s (n + 1) =
          (f page s).1 ++ concatPages f (page + 1) (f page s).2 n := rfl
      have hr : List.range' page (n + 1 + 1) = page :: List.range' (page + 1) (n + 1) := by
        rw [List.range'_succ]
      have hrun : runFrom f page s (n + 1 + 1) = runFrom f (page + 1) (f page s).2 (n + 1) := rfl
      rw [hc, hr, hrun]
      rfl

theorem scrapePagesAux_spec {σ α : Type} (f : Nat → σ → List α × σ) :
    ∀ (n page : Nat) (s : σ) (m : Nat),
      (∀ j, j < n → pageDataFrom f page s j ≠ []) →
      pageDataFrom f page s n = [] →
      scrapePagesAux f (List.range' page (n + 1 + m)) s =
        (concatPages f page s n, List.range' page (n + 1), runFrom f page s (n + 1)) := by
  intro n
  induction n with
  | zero =>
    intro page s m _ hempty
    have h0 : (f page s).1 = [] := hempty
    rw [show (0 + 1 + m) = m + 1 by omega, List.range'_succ]
    simp [scrapePagesAux, h0, concatPages, List.range', runFrom]
  | succ n ih =>
    intro page s m hne hempty
    have h0 : (f page s).1 ≠ [] := hne 0 (Nat.succ_pos n)
    rw [show (n + 1 + 1 + m) = (n + 1 + m) + 1 by omega, List.range'_succ]
    have hrec := ih (page + 1) (f page s).2 m
      (fun j hj => by
        have := hne (j + 1) (Nat.succ_lt_succ hj)
        rwa [pageDataFrom_succ] at this)
      (by rw [← pageDataFrom_succ]; exact hempty)
    have h0b : (f page s).1.isEmpty = false := by
      cases hq : (f page s).1 with
      | nil => exact absurd hq h0
      | cons a l => rfl
    simp only [scrapePagesAux, h0b, Bool.false_eq_true, if_false, hrec]
    have hc : concatPages f page s (n + 1) =
        (f page s).1 ++ concatPages f (page + 1) (f page s).2 n := rfl
    have hr : List.range' page (n + 1 + 1) = page :: List.range' (page + 1) (n + 1) := by
      rw [List.range'_succ]
    have hrun : runFrom f page s (n + 1 + 1) = runFrom f (page + 1) (f page s).2 (n + 1) := rfl
    rw [hc, hr, hrun]

/-! ## Inversion lemmas for the `Except`-embedded engine -/

theorem except_bind_ok {ε α β : Type} (x : Except ε α) (f : α → Except ε β) (b : β) :
    (x >>= f) = .ok b ↔ ∃ a, x = .ok a ∧ f a = .ok b := by
  cases x with
  | error e =>
    constructor
    · intro h
      exact absurd h (by simp [Bind.bind, Except.bind])
    · rintro ⟨a, ha, _⟩
      exact absurd ha (by simp)
  | ok a =>
    constructor
    · intro h
      exact ⟨a, rfl, h⟩
    · rintro ⟨a2, ha, hf⟩
      cases ha
      exact hf

theorem mapM_ok_inv {ε α β : Type} (f : α → Except ε β) :
    ∀ (l : List α) (ys : List β), l.mapM f = .ok ys →
      ys.length = l.length ∧
        ∀ i (h1 : i < l.length) (h2 : i < ys.length),
          f (l.get ⟨i, h1⟩) = .ok (ys.get ⟨i, h2⟩) := by
  intro l
  induction l with
  | nil =>
    intro ys h
    simp only [List.mapM_nil, pure, Except.pure, Except.ok.injEq] at h
    subst h
    exact ⟨rfl, by intro i h1 _; exact absurd h1 (Nat.not_lt_zero i)⟩
  | cons a l ih =>
    intro ys h
    simp only [List.mapM_cons] at h
    rw [except_bind_ok] at h
    obtain ⟨b, hb, h⟩ := h
    rw [except_bind_ok] at h
    obtain ⟨bs, hbs, h⟩ := h
    simp only [pure, Except.pure, Except.ok.injEq] at h
    subst h
    obtain ⟨hlen, hget⟩ := ih bs hbs
    refine ⟨by simpa using hlen, ?_⟩
    intro i h1 h2
    match i with
    | 0 => simpa using hb
    | i + 1 =>
      simp only [List.get_cons_succ]
      exact hget i (by simpa using h1) (by simpa using h2)

theorem mapM_ok_mem {ε α β : Type} (f : α → Except ε β) (l : List α) (ys : List β)
    (h : l.mapM f = .ok ys) : ∀ y ∈ ys, ∃ x ∈ l, f x = .ok y := by
  induction l generalizing ys with
  | nil =>
    simp only [List.mapM_nil, pure, Except.pure, Except.ok.injEq] at h
    subst h
    intro y hy
    exact absurd hy (List.not_mem_nil y)
  | cons a l ih =>
    simp only [List.mapM_cons] at h
    rw [except_bind_ok] at h
    obtain ⟨b, hb, h⟩ := h
    rw [except_bind_ok] at h
    obtain ⟨bs, hbs, h⟩ := h
    simp only [pure, Except.pure, Except.ok.injEq] at h
    subst h
    intro y hy
    rcases List.mem_cons.mp hy with rfl | hy2
    · exact ⟨a, List.mem_cons_self a l, hb⟩
    · obtain ⟨x, hx, hfx⟩ := ih bs hbs y hy2
      exact ⟨x, List.mem_cons_of_mem a hx, hfx⟩

theorem parseCommon_ok_inv (geo : GeoOracle) (l : RawListing) (title : String)
    (c : ParsedCommon) (h : parseCommon geo l title = .ok c) :
    c.seller = DaftRealEstateParser.parse_seller_info geo (l.seller.getD {}) ∧
    c.advert_type = DaftRealEstateParser.parse_advert_type (l.category.getD "") ∧
    c.publish_date = l.publishDate.map PyDateTime.fromTimestampMs ∧
    c.category = DaftRealEstateParser.build_category_hierarchy (l.sections.getD []) := by
  unfold parseCommon at h
  rw [except_bind_ok] at h
  obtain ⟨addr, _, h⟩ := h
  rw [except_bind_ok] at h
  obtain ⟨hp, _, h⟩ := h
  obtain ⟨headPH, freq⟩ := hp
  rw [except_bind_ok] at h
  obtain ⟨ph2, _, h⟩ := h
  rw [except_bind_ok] at h
  obtain ⟨off, _, h⟩ := h
  rw [except_bind_ok] at h
  obtain ⟨psize, _, h⟩ := h
  rw [except_bind_ok] at h
  obtain ⟨phist, _, h⟩ := h
  simp only [pure, Except.pure, Except.ok.injEq] at h
  subst h
  exact ⟨rfl, rfl, rfl, rfl⟩

theorem popOrErr_ok {α : Type} (msg : String) (x : Option α) (v : α) :
    popOrErr msg x = .ok v ↔ x = some v := by
  cases x <;> simp [popOrErr, pure, Except.pure]

theorem prsUnitInfo_ok_inv (pd : Option PyDateTime) (at_ : Option RelaEstateAdvertEnum)
    (u : RawUnit) (info : UnitInfo) (h : prsUnitInfo pd at_ u = .ok info) :
    (∃ m, u.media = some m ∧
      info.images = DaftRealEstateParser.imagesOf (m.images.getD [])) ∧
    info.bedrooms = DaftRealEstateParser.parse_bedbathrooms u.numBedrooms ∧
    info.bathrooms = DaftRealEstateParser.parse_bedbathrooms u.numBathrooms ∧
    DaftRealEstateParser.parse_price_history u.price pd at_ = .ok (info.ph, info.freq) ∧
    (∃ q, u.seoFriendlyPath = some q ∧ info.path = some q) ∧
    info.property_type = u.propertyType := by
  unfold prsUnitInfo at h
  rw [except_bind_ok] at h
  obtain ⟨m, hm, h⟩ := h
  rw [except_bind_ok] at h
  obtain ⟨priced, hpriced, h⟩ := h
  rw [except_bind_ok] at h
  obtain ⟨path, hpath, h⟩ := h
  rw [except_bind_ok] at h
  obtain ⟨ub, _, h⟩ := h
  rw [except_bind_ok] at h
  obtain ⟨rating, _, h⟩ := h
  simp only [pure, Except.pure, Except.ok.injEq] at h
  subst h
  rw [popOrErr_ok] at hm hpath
  exact ⟨⟨m, hm, rfl⟩, rfl, rfl, hpriced, ⟨path, hpath, rfl⟩, rfl⟩

theorem processRecord_skip_no_listing (geo : GeoOracle) (seen : List String) (item : RawItem)
    (h : item.listing = none) : processRecord geo seen item = .ok ([], seen, item) := by
  unfold processRecord
  rw [h]
  rfl

theorem processRecord_skip_no_path (geo : GeoOracle) (seen : List String) (item : RawItem)
    (l : RawListing) (hl : item.listing = some l) (hp : l.seoFriendlyPath = none) :
    processRecord geo seen item = .ok ([], seen, item) := by
  unfold processRecord
  simp only [hl, Option.getD_some, hp]

theorem processRecord_skip_no_title (geo : GeoOracle) (seen : List String) (item : RawItem)
    (l : RawListing) (p : String) (hl : item.listing = some l)
    (hp : l.seoFriendlyPath = some p) (ht : l.title = none) :
    processRecord geo seen item = .ok ([], seen, item) := by
  unfold processRecord
  simp only [hl, Option.getD_some, hp, ht]

theorem processRecord_skip_dup (geo : GeoOracle) (seen : List String) (item : RawItem)
    (l : RawListing) (p t : String) (hl : item.listing = some l)
    (hp : l.seoFriendlyPath = some p) (ht : l.title = some t)
    (hseen : siteOrigin ++ p ∈ seen) :
    processRecord geo seen item =
      .ok ([], seen, { listing := some { l with seoFriendlyPath := none } }) := by
  unfold processRecord
  simp only [hl, Option.getD_some, hp, ht]
  rw [if_pos hseen]

theorem processRecord_ok_admitted (geo : GeoOracle) (seen : List String) (item : RawItem)
    (out : List RealEstate) (s2 : List String) (r : RawItem) (l : RawListing) (p t st : String)
    (hl : item.listing = some l) (hp : l.seoFriendlyPath = some p) (ht : l.title = some t)
    (hst : l.seoTitle = some st) (hseen : siteOrigin ++ p ∉ seen)
    (hok : processRecord geo seen item = .ok (out, s2, r)) :
    ∃ c, parseCommon geo l t = .ok c ∧
      emitListings t st (siteOrigin ++ p) c l = .ok out ∧
      s2 = (siteOrigin ++ p) :: seen ∧ r = { listing := some (residualOf l) } := by
  unfold processRecord at hok
  simp only [hl, Option.getD_some, hp, ht, hst] at hok
  rw [if_neg hseen] at hok
  rw [except_bind_ok] at hok
  obtain ⟨c, hc, hok⟩ := hok
  rw [except_bind_ok] at hok
  obtain ⟨out2, hemit, hok⟩ := hok
  simp only [pure, Except.pure, Except.ok.injEq, Prod.mk.injEq] at hok
  obtain ⟨h1, h2, h3⟩ := hok
  subst h1
  exact ⟨c, hc, hemit, h2.symm, h3.symm⟩

theorem except_map_ok {ε α β : Type} (f : α → β) (x : Except ε α) (b : β) :
    x.map f = .ok b ↔ ∃ a, x = .ok a ∧ f a = b := by
  cases x <;> simp [Except.map]

theorem except_bind_ok_eval {ε α β : Type} (a : α) (f : α → Except ε β) :
    ((Except.ok a : Except ε α) >>= f) = f a := rfl

theorem processRecord_err_no_seoTitle (geo : GeoOracle) (seen : List String) (item : RawItem)
    (l : RawListing) (p t : String) (hl : item.listing = some l)
    (hp : l.seoFriendlyPath = some p) (ht : l.title = some t)
    (hseen : siteOrigin ++ p ∉ seen) (hst : l.seoTitle = none) :
    processRecord geo seen item = .error "KeyError: seoTitle" := by
  unfold processRecord
  simp only [hl, Option.getD_some, hp, ht, hst]
  rw [if_neg hseen]

theorem residualOf_path (l : RawListing) : (residualOf l).seoFriendlyPath = none := by
  unfold residualOf nonPrsResidual residualCommon
  rcases l.prs with _ | ⟨psub, ptag, ploc, pbro, pabout⟩
  · rcases l.newHome with _ | ⟨nsub, ndev, nab, nbro⟩
    · rfl
    · rcases nsub with _ | u <;> rfl
  · rcases psub with _ | u
    · rcases l.newHome with _ | ⟨nsub, ndev, nab, nbro⟩
      · rfl
      · rcases nsub with _ | u2 <;> rfl
    · rfl

/-- A record that one pass has already processed (successfully, as a skip or
an emit) yields nothing on a second pass: every admitted record lost its
`seoFriendlyPath` to `pop`, and every skipped record is skipped again. -/
theorem processRecord_residual_inert (geo : GeoOracle) (seen : List String) (item : RawItem)
    (out : List RealEstate) (s2 : List String) (r : RawItem)
    (hok : processRecord geo seen item = .ok (out, s2, r)) :
    ∀ seenB, processRecord geo seenB r = .ok ([], seenB, r) := by
  intro seenB
  rcases hl : item.listing with _ | l
  · have h1 := processRecord_skip_no_listing geo seen item hl
    rw [hok] at h1
    simp only [Except.ok.injEq, Prod.mk.injEq] at h1
    rw [h1.2.2]
    exact processRecord_skip_no_listing geo seenB item hl
  · rcases hp : l.seoFriendlyPath with _ | p
    · have h1 := processRecord_skip_no_path geo seen item l hl hp
      rw [hok] at h1
      simp only [Except.ok.injEq, Prod.mk.injEq] at h1
      rw [h1.2.2]
      exact processRecord_skip_no_path geo seenB item l hl hp
    · rcases ht : l.title with _ | t
      · have h1 := processRecord_skip_no_title geo seen item l p hl hp ht
        rw [hok] at h1
        simp only [Except.ok.injEq, Prod.mk.injEq] at h1
        rw [h1.2.2]
        exact processRecord_skip_no_title geo seenB item l p hl hp ht
      · by_cases hseen : siteOrigin ++ p ∈ seen
        · have h1 := processRecord_skip_dup geo seen item l p t hl hp ht hseen
          rw [hok] at h1
          simp only [Except.ok.injEq, Prod.mk.injEq] at h1
          rw [h1.2.2]
          exact processRecord_skip_no_path geo seenB _ _ rfl rfl
        · rcases hst : l.seoTitle with _ | st
          · have h1 := processRecord_err_no_seoTitle geo seen item l p t hl hp ht hseen hst
            rw [hok] at h1
            exact absurd h1 (by simp)
          · obtain ⟨c, -, -, -, hr⟩ :=
              processRecord_ok_admitted geo seen item out s2 r l p t st hl hp ht hst hseen hok
            rw [hr]
            exact processRecord_skip_no_path geo seenB _ (residualOf l) rfl (residualOf_path l)

theorem processItems_residual_inert (geo : GeoOracle) :
    ∀ (items : List RawItem) (seen : List String) (out : List RealEstate)
      (s2 : List String) (rs : List RawItem),
      processItems geo seen items = .ok (out, s2, rs) →
      ∀ seenB, processItems geo seenB rs = .ok ([], seenB, rs) := by
  intro items
  induction items with
  | nil =>
    intro seen out s2 rs h seenB
    simp only [processItems, pure, Except.pure, Except.ok.injEq, Prod.mk.injEq] at h
    rw [← h.2.2]
    rfl
  | cons it rest ih =>
    intro seen out s2 rs h seenB
    simp only [processItems] at h
    rw [except_bind_ok] at h
    obtain ⟨⟨o1, s1, r1⟩, h1, h⟩ := h
    rw [except_bind_ok] at h
    obtain ⟨⟨o2, s2x, r2⟩, h2, h⟩ := h
    simp only [pure, Except.pure, Except.ok.injEq, Prod.mk.injEq] at h
    have hrs : rs = r1 :: r2 := h.2.2.symm
    subst hrs
    have hi1 := processRecord_residual_inert geo seen it o1 s1 r1 h1 seenB
    have hi2 := ih s1 o2 s2x r2 h2 seenB
    simp only [processItems, hi1, except_bind_ok_eval, hi2]
    rfl

theorem processCategories_residual_inert (geo : GeoOracle) :
    ∀ (data : List (String × List RawItem)) (seen : List String) (out : List RealEstate)
      (s2 : List String) (rs : List (String × List RawItem)),
      processCategories geo seen data = .ok (out, s2, rs) →
      ∀ seenB, processCategories geo seenB rs = .ok ([], seenB, rs) := by
  intro data
  induction data with
  | nil =>
    intro seen out s2 rs h seenB
    simp only [processCategories, pure, Except.pure, Except.ok.injEq, Prod.mk.injEq] at h
    rw [← h.2.2]
    rfl
  | cons hd rest ih =>
    intro seen out s2 rs h seenB
    obtain ⟨cat, items⟩ := hd
    simp only [processCategories] at h
    rw [except_bind_ok] at h
    obtain ⟨⟨o1, s1, r1⟩, h1, h⟩ := h
    rw [except_bind_ok] at h
    obtain ⟨⟨o2, s2x, r2⟩, h2, h⟩ := h
    simp only [pure, Except.pure, Except.ok.injEq, Prod.mk.injEq] at h
    have hrs : rs = (cat, r1) :: r2 := h.2.2.symm
    subst hrs
    have hi1 := processItems_residual_inert geo items seen o1 s1 r1 h1 seenB
    have hi2 := ih s1 o2 s2x r2 h2 seenB
    simp only [processCategories, hi1, except_bind_ok_eval, hi2]
    rfl

theorem emitPrs_ok_mem (t st : String) (c : ParsedCommon) (prs : RawPrs)
    (units : List RawUnit) (out : List RealEstate) (h : emitPrs t st c prs units = .ok out) :
    ∀ x ∈ out, x.category = c.category ∧ x.title = t ∧
      (∃ q, x.url = some (siteOrigin ++ q)) := by
  unfold emitPrs at h
  rcases htag : prs.tagLinePresent with _ | _
  · rw [htag] at h
    exact absurd h (by simp)
  · rw [htag] at h
    have h2 : (units.mapM (prsUnitInfo c.publish_date c.advert_type) >>= fun infos =>
        match infos with
        | [] => pure []
        | i0 :: irest =>
          match c.ber with
          | none => .error "AttributeError: NoneType has no attribute rating"
          | some b =>
            pure ((i0 :: irest).map (prsListing t st c prs
              (some { b with rating := (irest.getLastD i0).rating })))) = .ok out := h
    rw [except_bind_ok] at h2
    obtain ⟨infos, hinfos, h2⟩ := h2
    rcases infos with _ | ⟨i0, irest⟩
    · have h3 : Except.ok ([] : List RealEstate) = .ok out := h2
      simp only [Except.ok.injEq] at h3
      subst h3
      intro x hx
      exact absurd hx (List.not_mem_nil x)
    · rcases hber : c.ber with _ | b
      · rw [hber] at h2
        exact absurd h2 (by simp)
      · rw [hber] at h2
        have h3 : Except.ok ((i0 :: irest).map (prsListing t st c prs
            (some { b with rating := (irest.getLastD i0).rating }))) = .ok out := h2
        simp only [Except.ok.injEq] at h3
        subst h3
        intro x hx
        rw [List.mem_map] at hx
        obtain ⟨info, hmem, hx⟩ := hx
        subst hx
        obtain ⟨u, hu, hinfo⟩ :=
          mapM_ok_mem (prsUnitInfo c.publish_date c.advert_type) units (i0 :: irest) hinfos
            info hmem
        obtain ⟨-, -, -, -, ⟨q, -, hpath⟩, -⟩ :=
          prsUnitInfo_ok_inv c.publish_date c.advert_type u info hinfo
        refine ⟨rfl, rfl, q, ?_⟩
        show info.path.map (fun p => siteOrigin ++ p) = some (siteOrigin ++ q)
        rw [hpath]
        rfl

theorem emitNewHome_ok_mem (t st url : String) (c : ParsedCommon) (nh : RawNewHome)
    (units : List RawUnit) (out : List RealEstate)
    (h : emitNewHome t st url c nh units = .ok out) :
    ∀ x ∈ out, x.category = c.category ∧ x.title = t ∧ x.url = some url := by
  unfold emitNewHome at h
  rw [except_bind_ok] at h
  obtain ⟨infos, hinfos, h⟩ := h
  rcases infos with _ | ⟨i0, irest⟩
  · have h3 : Except.ok ([] : List RealEstate) = .ok out := h
    simp only [Except.ok.injEq] at h3
    subst h3
    intro x hx
    exact absurd hx (List.not_mem_nil x)
  · rcases hber : c.ber with _ | b
    · rw [hber] at h
      exact absurd h (by simp)
    · rw [hber] at h
      have h3 : Except.ok ((i0 :: irest).map (newHomeListing t st url c nh
          (some { b with rating := (irest.getLastD i0).rating }))) = .ok out := h
      simp only [Except.ok.injEq] at h3
      subst h3
      intro x hx
      rw [List.mem_map] at hx
      obtain ⟨info, -, hx⟩ := hx
      subst hx
      exact ⟨rfl, rfl, rfl⟩

theorem emitNonPrs_ok_mem (t st url : String) (c : ParsedCommon) (l : RawListing)
    (out : List RealEstate) (h : emitNonPrs t st url c l = .ok out) :
    ∀ x ∈ out, x.category = c.category ∧ x.title = t ∧
      (x.url = some url ∨ ∃ q, x.url = some (siteOrigin ++ q)) := by
  unfold emitNonPrs at h
  rcases hnh : l.newHome with _ | ⟨nsub, ndev, nab, nbro⟩
  · rw [hnh] at h
    have h3 : Except.ok [flatListing t st url c] = .ok out := h
    simp only [Except.ok.injEq] at h3
    subst h3
    intro x hx
    rw [List.mem_singleton] at hx
    subst hx
    exact ⟨rfl, rfl, Or.inl rfl⟩
  · rw [hnh] at h
    rcases nsub with _ | units
    · have h3 : Except.ok [flatListing t st url c] = .ok out := h
      simp only [Except.ok.injEq] at h3
      subst h3
      intro x hx
      rw [List.mem_singleton] at hx
      subst hx
      exact ⟨rfl, rfl, Or.inl rfl⟩
    · have h3 : emitNewHome t st url c ⟨some units, ndev, nab, nbro⟩ units = .ok out := h
      intro x hx
      obtain ⟨hc, ht, hu⟩ := emitNewHome_ok_mem t st url c _ units out h3 x hx
      exact ⟨hc, ht, Or.inl hu⟩

theorem emitListings_ok_mem (t st url : String) (c : ParsedCommon) (l : RawListing)
    (out : List RealEstate) (h : emitListings t st url c l = .ok out) :
    ∀ x ∈ out, x.category = c.category ∧ x.title = t ∧
      (x.url = some url ∨ ∃ q, x.url = some (siteOrigin ++ q)) := by
  unfold emitListings at h
  rcases hprs : l.prs with _ | ⟨psub, ptag, ploc, pbro, pabout⟩
  · rw [hprs] at h
    exact emitNonPrs_ok_mem t st url c l out h
  · rw [hprs] at h
    rcases psub with _ | units
    · exact emitNonPrs_ok_mem t st url c l out h
    · have h3 : emitPrs t st c ⟨some units, ptag, ploc, pbro, pabout⟩ units = .ok out := h
      intro x hx
      obtain ⟨hc, ht2, hq⟩ := emitPrs_ok_mem t st c _ units out h3 x hx
      exact ⟨hc, ht2, Or.inr hq⟩

/-- Any successful `processRecord` either skipped the record (no output) or
admitted it through the full parse/emit pipeline. -/
theorem processRecord_ok_cases (geo : GeoOracle) (seen : List String) (item : RawItem)
    (out : List RealEstate) (s2 : List String) (r : RawItem)
    (hok : processRecord geo seen item = .ok (out, s2, r)) :
    out = [] ∨
      ∃ l p t st c, item.listing = some l ∧ l.seoFriendlyPath = some p ∧
        l.title = some t ∧ l.seoTitle = some st ∧ siteOrigin ++ p ∉ seen ∧
        parseCommon geo l t = .ok c ∧
        emitListings t st (siteOrigin ++ p) c l = .ok out := by
  rcases hl : item.listing with _ | l
  · have h1 := processRecord_skip_no_listing geo seen item hl
    rw [hok] at h1
    simp only [Except.ok.injEq, Prod.mk.injEq] at h1
    exact Or.inl h1.1
  · rcases hp : l.seoFriendlyPath with _ | p
    · have h1 := processRecord_skip_no_path geo seen item l hl hp
      rw [hok] at h1
      simp only [Except.ok.injEq, Prod.mk.injEq] at h1
      exact Or.inl h1.1
    · rcases ht : l.title with _ | t
      · have h1 := processRecord_skip_no_title geo seen item l p hl hp ht
        rw [hok] at h1
        simp only [Except.ok.injEq, Prod.mk.injEq] at h1
        exact Or.inl h1.1
      · by_cases hseen : siteOrigin ++ p ∈ seen
        · have h1 := processRecord_skip_dup geo seen item l p t hl hp ht hseen
          rw [hok] at h1
          simp only [Except.ok.injEq, Prod.mk.injEq] at h1
          exact Or.inl h1.1
        · rcases hst : l.seoTitle with _ | st
          · have h1 := processRecord_err_no_seoTitle geo seen item l p t hl hp ht hseen hst
            rw [hok] at h1
            exact absurd h1 (by simp)
          · obtain ⟨c, hc, hemit, -, -⟩ :=
              processRecord_ok_admitted geo seen item out s2 r l p t st hl hp ht hst hseen hok
            exact Or.inr ⟨l, p, t, st, c, rfl, hp, ht, hst, hseen, hc, hemit⟩

/-! ## Category-builder lemmas -/

/-- Chain names of an optional node (empty for `none`). -/
def chainNamesOpt (o : Option Category) : List String :=
  (o.map Category.chainNames).getD []

theorem chainNamesOpt_mk (n : String) (acc : Option Category) :
    chainNamesOpt (some (Category.mk n acc)) = n :: chainNamesOpt acc := by
  cases acc <;> rfl

theorem build_foldl_chain :
    ∀ (names : List String) (acc : Option Category),
      chainNamesOpt (names.foldl (fun parent name => some (Category.mk name parent)) acc) =
        names.reverse ++ chainNamesOpt acc := by
  intro names
  induction names with
  | nil => intro acc; simp
  | cons n ns ih =>
    intro acc
    rw [List.foldl_cons, ih, chainNamesOpt_mk]
    simp

theorem build_foldl_some :
    ∀ (ns : List String) (c0 : Category),
      ∃ c, ns.foldl (fun parent name => some (Category.mk name parent)) (some c0) = some c := by
  intro ns
  induction ns with
  | nil => intro c0; exact ⟨c0, rfl⟩
  | cons m ms ih => intro c0; exact ih (Category.mk m (some c0))

/-! ## Claim theorems -/

/-- Claim C9: for every RealEstate value, `add_price` sets `current := false`
on every pre-existing PriceHistory entry (leaving them otherwise unchanged)
and appends the new entry with `current := true` (the default), the supplied
price/timestamp/source, and the constructor defaults for currency and
category. -/
theorem claimC9_add_price_flips_current (r : RealEstate) (p : Option Int)
    (ts : Option PyDateTime) (src : Option String) (now : PyDateTime) :
    (r.add_price p ts true src now).price_history =
      r.price_history.map (fun ph => { ph with current := false }) ++
        [{ price := p, timestamp := some (ts.getD now), current := true, source := src,
           currency := some "€", category := some .RENT }] := rfl

/-- Claim C10: `build_category_hierarchy` returns the node named after the
last element of a non-empty name list, whose `chainNames` walk is exactly the
reversed list (so the parent chain runs through the earlier names to a root
with parent `None`); the empty list gives `None`; and a normalized record
whose `sections` array is absent or empty is emitted with `category = None`
in every produced Listing. -/
theorem claimC10_build_category_leaf :
    (∀ names : List String, names ≠ [] →
      ∃ c, DaftRealEstateParser.build_category_hierarchy names = some c ∧
        c.chainNames = names.reverse) ∧
    DaftRealEstateParser.build_category_hierarchy [] = none ∧
    (∀ (geo : GeoOracle) (seen : List String) (item : RawItem) (out : List RealEstate)
      (s2 : List String) (r : RawItem) (l : RawListing),
      processRecord geo seen item = .ok (out, s2, r) → item.listing = some l →
      (l.sections = none ∨ l.sections = some []) →
      ∀ x ∈ out, x.category = none) := by
  refine ⟨?_, rfl, ?_⟩
  · intro names hne
    match names, hne with
    | n :: ns, _ =>
      obtain ⟨c, hc⟩ := build_foldl_some ns (Category.mk n none)
      have hbuild : DaftRealEstateParser.build_category_hierarchy (n :: ns) = some c := hc
      refine ⟨c, hbuild, ?_⟩
      have h1 := build_foldl_chain (n :: ns) none
      rw [show ((n :: ns).foldl (fun parent name => some (Category.mk name parent)) none) =
          (ns.foldl (fun parent name => some (Category.mk name parent))
            (some (Category.mk n none))) from rfl, hc] at h1
      simpa [chainNamesOpt] using h1
  · intro geo seen item out s2 r l hok hl hsec
    rcases processRecord_ok_cases geo seen item out s2 r hok with rfl | hadm
    · intro x hx
      exact absurd hx (List.not_mem_nil x)
    · obtain ⟨l2, p, t, st, c, hl2, hp, ht, hst, hseen, hc, hemit⟩ := hadm
      rw [hl] at hl2
      injection hl2 with hl2
      subst hl2
      intro x hx
      obtain ⟨hcat, -, -⟩ := emitListings_ok_mem t st _ c l out hemit x hx
      obtain ⟨-, -, -, hcatc⟩ := parseCommon_ok_inv geo l t c hc
      rw [hcat, hcatc]
      have hsecD : l.sections.getD [] = [] := by
        rcases hsec with h | h <;> rw [h] <;> rfl
      rw [hsecD]
      rfl

/-- Witness for C10 at a concrete two-level section list. -/
theorem claimC10_witness :
    DaftRealEstateParser.build_category_hierarchy ["Property", "Houses"] =
      some (Category.mk "Houses" (some (Category.mk "Property" none))) ∧
    (Category.mk "Houses" (some (Category.mk "Property" none))).chainNames =
      ["Property", "Houses"].reverse := by
  obtain ⟨c, hc, hchain⟩ := claimC10_build_category_leaf.1 ["Property", "Houses"] (by decide)
  have hcv : c = Category.mk "Houses" (some (Category.mk "Property" none)) := by
    have : DaftRealEstateParser.build_category_hierarchy ["Property", "Houses"] =
        some (Category.mk "Houses" (some (Category.mk "Property" none))) := rfl
    rw [this] at hc
    exact (Option.some.inj hc).symm
  subst hcv
  exact ⟨hc, hchain⟩

/-- Claim C2: for every embedded price-history record whose price string and
priceDifference string parse under the strict price grammar and whose date
string is a valid `DD/MM/YYYY` date (and a category in {Rent, Sale}, the only
ones `from_dict` accepts), `from_dict` reconstructs the historical price as
listed + difference under DECREASE, listed − difference under INCREASE, and
listed unchanged otherwise, with `priceDifference` defaulting to `"€0"`;
including the three concrete 200000 ± 20000 examples. -/
theorem claimC2_from_dict_reconstruction :
    (∀ (d : PriceHistoryData) (cat : Option RelaEstateAdvertEnum) (ps sdate cur dcur : String)
      (p diff : Int) (dd mm yy : Nat),
      (cat = some .RENT ∨ cat = some .SALE) →
      d.price = some ps →
      PriceHistory.parse_price ps = .ok (p, cur) →
      PriceHistory.parse_price (d.priceDifference.getD "€0") = .ok (diff, dcur) →
      d.date = some sdate →
      parseDMY sdate = some (dd, mm, yy) →
      PriceHistory.from_dict d cat = .ok
        { price := some (if pyToUpper (d.direction.getD "") = "DECREASE" then p + diff
                         else if pyToUpper (d.direction.getD "") = "INCREASE" then p - diff
                         else p),
          timestamp := some (.strptimeDMY dd mm yy), currency := some cur, category := cat,
          current := d.current.getD false, source := none }) ∧
    PriceHistory.from_dict
      { price := some "€200,000", date := some "01/02/2024", direction := some "DECREASE",
        priceDifference := some "€20,000" } (some .SALE) =
      .ok { price := some 220000, timestamp := some (.strptimeDMY 1 2 2024),
            currency := some "€", category := some .SALE, current := false, source := none } ∧
    PriceHistory.from_dict
      { price := some "€200,000", date := some "01/02/2024", direction := some "INCREASE",
        priceDifference := some "€20,000" } (some .SALE) =
      .ok { price := some 180000, timestamp := some (.strptimeDMY 1 2 2024),
            currency := some "€", category := some .SALE, current := false, source := none } ∧
    PriceHistory.from_dict
      { price := some "€200,000", date := some "01/02/2024",
        priceDifference := some "€20,000" } (some .SALE) =
      .ok { price := some 200000, timestamp := some (.strptimeDMY 1 2 2024),
            currency := some "€", category := some .SALE, current := false, source := none } := by
  refine ⟨?_, by decide, by decide, by decide⟩
  intro d cat ps sdate cur dcur p diff dd mm yy hcat hps hp hdiff hdate hdmy
  unfold PriceHistory.from_dict
  rw [if_pos hcat]
  simp only [hps, hp, hdate, hdmy, hdiff, except_bind_ok_eval, pure, Except.pure]

/-- Witness for C2 at a lowercase direction (`"decrease"`, uppercased by the
code before comparison). -/
theorem claimC2_witness :
    PriceHistory.from_dict
      { price := some "€5,000", date := some "13/05/2021", direction := some "decrease",
        priceDifference := some "€150", current := some true } (some .RENT) =
      .ok { price := some 5150, timestamp := some (.strptimeDMY 13 5 2021),
            currency := some "€", category := some .RENT, current := true, source := none } := by
  exact (claimC2_from_dict_reconstruction.1
    { price := some "€5,000", date := some "13/05/2021", direction := some "decrease",
      priceDifference := some "€150", current := some true }
    (some .RENT) "€5,000" "13/05/2021" "€" "€" 5000 150 13 5 2021
    (Or.inl rfl) rfl (by decide) (by decide) rfl (by decide)).trans (by decide)

/-- Claim C4: `scrape_all_pages` fetches pages 1, 2, 3, … in order, stops at
the first page whose (new-record) data is empty, fetches nothing beyond it,
and returns exactly the concatenation of the earlier non-empty pages;
`scrape_pages` does the same over its bounded `range(start, end + 1)`. -/
theorem claimC4_pagination_stops :
    (∀ (σ α : Type) (f : Nat → σ → List α × σ) (s : σ) (n fuel : Nat),
      (∀ j, j < n → pageDataFrom f 1 s j ≠ []) →
      pageDataFrom f 1 s n = [] →
      n + 1 ≤ fuel →
      BaseScraper.scrape_all_pages f fuel s =
        some (concatPages f 1 s n, List.range' 1 (n + 1), runFrom f 1 s (n + 1))) ∧
    (∀ (σ α : Type) (f : Nat → σ → List α × σ) (s : σ) (start_page n end_page : Nat),
      (∀ j, j < n → pageDataFrom f start_page s j ≠ []) →
      pageDataFrom f start_page s n = [] →
      start_page + n ≤ end_page →
      BaseScraper.scrape_pages f start_page end_page s =
        (concatPages f start_page s n, List.range' start_page (n + 1),
         runFrom f start_page s (n + 1))) := by
  constructor
  · intro σ α f s n fuel h1 h2 h3
    exact scrapeAllPagesAux_spec f n 1 s fuel h1 h2 h3
  · intro σ α f s start_page n end_page h1 h2 h3
    unfold BaseScraper.scrape_pages
    rw [show end_page + 1 - start_page = n + 1 + (end_page - start_page - n) by omega]
    exact scrapePagesAux_spec f n start_page s (end_page - start_page - n) h1 h2

/-- The mocked page source of the spec's pagination test: non-empty pages
1..3, empty from page 4 on. -/
def pageSourceEx : Nat → Unit → List Nat × Unit :=
  fun k _ => (if k ≤ 3 then [k] else [], ())

/-- Witness for C4 on the mocked page source: pages 1–3 are returned, pages
1–4 (and no page 5) are fetched, in both pagination modes. -/
theorem claimC4_witness :
    BaseScraper.scrape_all_pages pageSourceEx 10 () = some ([1, 2, 3], [1, 2, 3, 4], ()) ∧
    BaseScraper.scrape_pages pageSourceEx 1 10 () = ([1, 2, 3], [1, 2, 3, 4], ()) := by
  constructor
  · exact (claimC4_pagination_stops.1 Unit Nat pageSourceEx () 3 10
      (by decide) (by decide) (by decide)).trans (by decide)
  · exact (claimC4_pagination_stops.2 Unit Nat pageSourceEx () 1 3 10
      (by decide) (by decide) (by decide)).trans (by decide)

/-- Claim C6: a raw listing missing `seoFriendlyPath` or `title` is dropped
(normalization of it emits nothing and changes nothing), and every Listing a
successful normalization emits carries a url of the form
`"https://www.daft.ie" ++ path`. -/
theorem claimC6_reject_and_url_invariant :
    (∀ (geo : GeoOracle) (seen : List String) (item : RawItem) (l : RawListing),
      item.listing = some l → (l.seoFriendlyPath = none ∨ l.title = none) →
      processRecord geo seen item = .ok ([], seen, item)) ∧
    (∀ (geo : GeoOracle) (seen : List String) (item : RawItem) (out : List RealEstate)
      (s2 : List String) (r : RawItem),
      processRecord geo seen item = .ok (out, s2, r) →
      ∀ x ∈ out, ∃ q, x.url = some (siteOrigin ++ q)) := by
  constructor
  · intro geo seen item l hl hmiss
    rcases hmiss with hp | ht
    · exact processRecord_skip_no_path geo seen item l hl hp
    · rcases hp : l.seoFriendlyPath with _ | p
      · exact processRecord_skip_no_path geo seen item l hl hp
      · exact processRecord_skip_no_title geo seen item l p hl hp ht
  · intro geo seen item out s2 r hok x hx
    rcases processRecord_ok_cases geo seen item out s2 r hok with rfl | hadm
    · exact absurd hx (List.not_mem_nil x)
    · obtain ⟨l, p, t, st, c, hl, hp, ht, hst, hseen, hc, hemit⟩ := hadm
      obtain ⟨-, -, hurl⟩ := emitListings_ok_mem t st (siteOrigin ++ p) c l out hemit x hx
      rcases hurl with h | ⟨q, hq⟩
      · exact ⟨p, h⟩
      · exact ⟨q, hq⟩

/-- Witness for C6: a record with a path but no title is skipped without
touching the state, by the first part of the claim theorem. -/
theorem claimC6_witness :
    processRecord geoNone ["x"] { listing := some { seoFriendlyPath := some "/no-title" } } =
      .ok ([], ["x"], { listing := some { seoFriendlyPath := some "/no-title" } }) :=
  claimC6_reject_and_url_invariant.1 geoNone ["x"]
    { listing := some { seoFriendlyPath := some "/no-title" } } _ rfl (Or.inr rfl)

/-- Claim C7 (code bug): malformed bedroom/bathroom text does degrade to
`None` without an error, but a headline price whose regex match carries a
decimal part (e.g. `"€1,200.50"`) makes `int()` raise `ValueError` instead of
degrading to null, and an all-whitespace `propertySize` raises an uncaught
`IndexError`; the strict historical parser also fails hard, as the claim
says. -/
theorem claimC7_headline_crash_on_decimal :
    DaftRealEstateParser.parse_price "€1,200.50" =
      .error "ValueError: invalid literal for int()" ∧
    DaftRealEstateParser.parse_bedbathrooms (some "Double") = some 2 ∧
    DaftRealEstateParser.parse_bedbathrooms (some "3 Bed") = some 3 ∧
    DaftRealEstateParser.parse_bedbathrooms (some "") = none ∧
    DaftRealEstateParser.parse_bedbathrooms none = none ∧
    DaftRealEstateParser.parse_bedbathrooms (some "studio flat") = none ∧
    propertySizeStep { propertySize := some " " } =
      .error "IndexError: list index out of range" ∧
    PriceHistory.parse_price "snack" = .error "Invalid price format: snack" := by
  refine ⟨by decide, by decide, by decide, by decide, by decide, by decide, by decide, by decide⟩

/-- Claim C8 (amended): one normalization pass destroys its raw input — a
second `get_real_estates` over the records the first pass left behind
(Python mutates the dicts in place) returns no Listings at all, because every
admitted record lost its `seoFriendlyPath`. -/
theorem claimC8_second_run_on_mutated_input_empty
    (geo : GeoOracle) (data : List (String × List RawItem)) (out : List RealEstate)
    (resid : List (String × List RawItem))
    (h : DaftRealEstateParser.get_real_estates geo data = .ok (out, resid)) :
    DaftRealEstateParser.get_real_estates geo resid = .ok ([], resid) := by
  unfold DaftRealEstateParser.get_real_estates at h ⊢
  rw [except_map_ok] at h
  obtain ⟨⟨o, sfin, rs⟩, hcat, hval⟩ := h
  simp only [Prod.mk.injEq] at hval
  have hres : resid = rs := hval.2.symm
  subst hres
  have h2 := processCategories_residual_inert geo data [] o sfin resid hcat []
  rw [h2]
  rfl

/-- Counterexample for C8 as stated: normalizing the same (mutable) raw
batch twice does not give identical results — the first pass over `recFlat`
emits one Listing, the second pass over what the first left behind emits
zero. -/
theorem claimC8_counterexample :
    (DaftRealEstateParser.get_real_estates geoNone
        [("residential-for-sale", [recFlat])]).map (fun r => r.1.length) = .ok 1 ∧
    ((DaftRealEstateParser.get_real_estates geoNone
        [("residential-for-sale", [recFlat])]).bind
      (fun r => DaftRealEstateParser.get_real_estates geoNone r.2)).map
        (fun r => r.1.length) = .ok 0 := by
  refine ⟨by decide, by decide⟩

/-- A record with no `seoFriendlyPath`: one pass skips it and leaves it
unchanged. -/
def c8skipItem : RawItem :=
  { listing := some { title := some "House 1", seoTitle := some "h", price := some "€1" } }

/-- Witness for C8: the amended theorem applied at a concrete batch (one that
the first pass leaves unchanged, so both components are writable in full). -/
theorem claimC8_witness :
    DaftRealEstateParser.get_real_estates geoNone [("c", [c8skipItem])] =
      .ok ([], [("c", [c8skipItem])]) :=
  claimC8_second_run_on_mutated_input_empty geoNone [("c", [c8skipItem])] []
    [("c", [c8skipItem])] (by decide)

/-- Claim C5 (amended): the pagination parse step admits an item only when
its id is new, mutating the ignore-list, so its output ids are pairwise
distinct and disjoint from the initial ignore-list (two same-path listings
admit only the first); and in one normalization batch a record whose derived
url equals the derived url of an *already admitted record* is silently
skipped. -/
theorem claimC5_dedup_invariant :
    (∀ (items : List RawItem) (ign : List (Option String)),
      ((DaftScraper.parse items ign).1.map idOf).Nodup ∧
        ∀ it ∈ (DaftScraper.parse items ign).1, idOf it ∉ ign) ∧
    (∀ (a b : RawItem) (ign : List (Option String)),
      idOf b = idOf a → idOf a ∉ ign → (DaftScraper.parse [a, b] ign).1 = [a]) ∧
    (∀ (geo : GeoOracle) (seen : List String) (item : RawItem) (l : RawListing) (p t : String),
      item.listing = some l → l.seoFriendlyPath = some p → l.title = some t →
      siteOrigin ++ p ∈ seen →
      processRecord geo seen item =
        .ok ([], seen, { listing := some { l with seoFriendlyPath := none } })) := by
  refine ⟨?_, ?_, ?_⟩
  · intro items
    induction items with
    | nil =>
      intro ign
      exact ⟨List.nodup_nil, fun it h => absurd h (List.not_mem_nil it)⟩
    | cons it rest ih =>
      intro ign
      by_cases hmem : idOf it ∈ ign
      · simp only [DaftScraper.parse, if_pos hmem]
        exact ih ign
      · simp only [DaftScraper.parse, if_neg hmem]
        obtain ⟨hnd, hnotin⟩ := ih (ign ++ [idOf it])
        constructor
        · rw [List.map_cons, List.nodup_cons]
          refine ⟨?_, hnd⟩
          rw [List.mem_map]
          rintro ⟨x, hx, hEq⟩
          exact hnotin x hx (List.mem_append_right ign (by simp [hEq]))
        · intro x hx
          rcases List.mem_cons.mp hx with rfl | hx2
          · exact hmem
          · intro hc
            exact hnotin x hx2 (List.mem_append_left _ hc)
  · intro a b ign hEq hnew
    simp only [DaftScraper.parse, if_neg hnew]
    rw [if_pos (List.mem_append_right ign (by simp [hEq]))]
  · intro geo seen item l p t hl hp ht hseen
    exact processRecord_skip_dup geo seen item l p t hl hp ht hseen

/-- Witness for C5: two items with the same path; the parse step keeps only
the first. -/
theorem claimC5_witness :
    (DaftScraper.parse
      [{ listing := some { seoFriendlyPath := some "/dup" } },
       { listing := some { seoFriendlyPath := some "/dup", title := some "B" } }] []).1 =
      [{ listing := some { seoFriendlyPath := some "/dup" } }] := by
  exact claimC5_dedup_invariant.2.1
    { listing := some { seoFriendlyPath := some "/dup" } }
    { listing := some { seoFriendlyPath := some "/dup", title := some "B" } }
    [] (by decide) (by decide)

/-- Two-record batch refuting C5 as stated: record A's `prs` sub-unit emits a
Listing with url `…/u1`; record B's own derived url is also `…/u1`, equal to
that already-emitted Listing's url, yet B is admitted and emitted too. -/
def c5unit : RawUnit :=
  { media := some { images := none, hasBrochure := none, brochure := none },
    price := some "€2,000", seoFriendlyPath := some "/u1",
    ber := some { rating := some (some "A2") } }

def c5recA : RawItem :=
  { listing := some { seoFriendlyPath := some "/dev-1", title := some "Dev",
                      seoTitle := some "dev", price := some "€1,000",
                      ber := some { rating := some "A" },
                      prs := some { tagLinePresent := true, subUnits := some [c5unit] } } }

def c5recB : RawItem :=
  { listing := some { seoFriendlyPath := some "/u1", title := some "U1",
                      seoTitle := some "u1", price := some "€3,000" } }

/-- Counterexample for C5 as stated ("a record whose derived url equals the
url of a Listing already emitted in that batch is silently skipped"): the
batch-local dedup set holds *derived record urls*, not emitted-Listing urls,
so B is not skipped and the output carries two Listings with the same url. -/
theorem claimC5_counterexample :
    (DaftRealEstateParser.get_real_estates geoNone
        [("residential-to-rent", [c5recA, c5recB])]).map (fun r => r.1.map RealEstate.url) =
      .ok [some "https://www.daft.ie/u1", some "https://www.daft.ie/u1"] := by
  decide

/-- Claim C3 (amended): an admitted record with `prs.subUnits` of length K
yields exactly K Listings, regardless of any `newHome` content (the `prs`
branch takes precedence); every emitted Listing shares the parent's title,
seller and category, each takes bedrooms, bathrooms, property type, url,
images and price history from its own sub-unit — but all K share one `Ber`
object (the parent's, whose rating was last overwritten by the *last*
sub-unit), not each its own sub-unit's energy rating. -/
theorem claimC3_prs_fanout
    (geo : GeoOracle) (seen : List String) (item : RawItem) (out : List RealEstate)
    (s2 : List String) (r : RawItem) (l : RawListing) (prs : RawPrs) (units : List RawUnit)
    (p t st : String)
    (hl : item.listing = some l) (hprs : l.prs = some prs) (hsub : prs.subUnits = some units)
    (hp : l.seoFriendlyPath = some p) (ht : l.title = some t) (hst : l.seoTitle = some st)
    (hseen : siteOrigin ++ p ∉ seen)
    (hok : processRecord geo seen item = .ok (out, s2, r)) :
    out.length = units.length ∧
    (∀ x ∈ out, x.title = t ∧
      x.seller = some (DaftRealEstateParser.parse_seller_info geo (l.seller.getD {})) ∧
      x.category = DaftRealEstateParser.build_category_hierarchy (l.sections.getD [])) ∧
    (∀ x ∈ out, ∀ y ∈ out, x.ber = y.ber) ∧
    (∀ i (hi : i < units.length) (ho : i < out.length),
      (out.get ⟨i, ho⟩).bedrooms =
        DaftRealEstateParser.parse_bedbathrooms (units.get ⟨i, hi⟩).numBedrooms ∧
      (out.get ⟨i, ho⟩).bathrooms =
        DaftRealEstateParser.parse_bedbathrooms (units.get ⟨i, hi⟩).numBathrooms ∧
      (out.get ⟨i, ho⟩).property_type = (units.get ⟨i, hi⟩).propertyType ∧
      (∃ q, (units.get ⟨i, hi⟩).seoFriendlyPath = some q ∧
        (out.get ⟨i, ho⟩).url = some (siteOrigin ++ q)) ∧
      (∃ m, (units.get ⟨i, hi⟩).media = some m ∧
        (out.get ⟨i, ho⟩).real_estate_images =
          DaftRealEstateParser.imagesOf (m.images.getD [])) ∧
      (∃ ph freq, DaftRealEstateParser.parse_price_history (units.get ⟨i, hi⟩).price
          (l.publishDate.map PyDateTime.fromTimestampMs)
          (DaftRealEstateParser.parse_advert_type (l.category.getD "")) = .ok (ph, freq) ∧
        (out.get ⟨i, ho⟩).price_history = [ph] ∧
        (out.get ⟨i, ho⟩).rent_payment_frequency = freq)) := by
  obtain ⟨c, hcommon, hemit, -, -⟩ :=
    processRecord_ok_admitted geo seen item out s2 r l p t st hl hp ht hst hseen hok
  obtain ⟨hsell, hadv, hpub, hcatg⟩ := parseCommon_ok_inv geo l t c hcommon
  unfold emitListings at hemit
  rw [hprs] at hemit
  have hemit2 : (match prs.subUnits with
      | some us => emitPrs t st c prs us
      | none => emitNonPrs t st (siteOrigin ++ p) c l) = .ok out := hemit
  rw [hsub] at hemit2
  have hemit3 : emitPrs t st c prs units = .ok out := hemit2
  unfold emitPrs at hemit3
  rcases htag : prs.tagLinePresent with _ | _
  · rw [htag] at hemit3
    exact absurd hemit3 (by simp)
  · rw [htag] at hemit3
    have hemit4 : (units.mapM (prsUnitInfo c.publish_date c.advert_type) >>= fun infos =>
        match infos with
        | [] => pure []
        | i0 :: irest =>
          match c.ber with
          | none => .error "AttributeError: NoneType has no attribute rating"
          | some b =>
            pure ((i0 :: irest).map (prsListing t st c prs
              (some { b with rating := (irest.getLastD i0).rating })))) = .ok out := hemit3
    rw [except_bind_ok] at hemit4
    obtain ⟨infos, hinfos, hemit5⟩ := hemit4
    obtain ⟨hlen, hget⟩ := mapM_ok_inv (prsUnitInfo c.publish_date c.advert_type) units
      infos hinfos
    rcases infos with _ | ⟨i0, irest⟩
    · have hout : Except.ok ([] : List RealEstate) = .ok out := hemit5
      simp only [Except.ok.injEq] at hout
      subst hout
      refine ⟨by simpa using hlen, ?_, ?_, ?_⟩
      · intro x hx
        exact absurd hx (List.not_mem_nil x)
      · intro x hx
        exact absurd hx (List.not_mem_nil x)
      · intro i hi ho
        exact absurd ho (by simp)
    · rcases hber : c.ber with _ | b
      · rw [hber] at hemit5
        exact absurd hemit5 (by simp)
      · rw [hber] at hemit5
        have hout : Except.ok ((i0 :: irest).map (prsListing t st c prs
            (some { b with rating := (irest.getLastD i0).rating }))) = .ok out := hemit5
        simp only [Except.ok.injEq] at hout
        subst hout
        refine ⟨by simpa using hlen, ?_, ?_, ?_⟩
        · intro x hx
          rw [List.mem_map] at hx
          obtain ⟨info, -, hx⟩ := hx
          subst hx
          exact ⟨rfl, by rw [show (prsListing t st c prs _ info).seller = some c.seller
            from rfl, hsell], by rw [show (prsListing t st c prs _ info).category = c.category
            from rfl, hcatg]⟩
        · intro x hx y hy
          rw [List.mem_map] at hx hy
          obtain ⟨ix, -, hx⟩ := hx
          obtain ⟨iy, -, hy⟩ := hy
          subst hx
          subst hy
          rfl
        · intro i hi ho
          have hoInfos : i < ((i0 :: irest) : List UnitInfo).length := by
            simpa using ho
          have hgetmap : (((i0 :: irest).map (prsListing t st c prs
              (some { b with rating := (irest.getLastD i0).rating }))).get ⟨i, ho⟩) =
              prsListing t st c prs (some { b with rating := (irest.getLastD i0).rating })
                (((i0 :: irest) : List UnitInfo).get ⟨i, hoInfos⟩) := by
            simp only [List.get_eq_getElem, List.getElem_map]
          rw [hgetmap]
          have hinfo := hget i hi hoInfos
          obtain ⟨⟨m, hm, himg⟩, hbed, hbath, hph, ⟨q, hq, hpath⟩, hpt⟩ :=
            prsUnitInfo_ok_inv c.publish_date c.advert_type (units.get ⟨i, hi⟩)
              (((i0 :: irest) : List UnitInfo).get ⟨i, hoInfos⟩) hinfo
          set info := ((i0 :: irest) : List UnitInfo).get ⟨i, hoInfos⟩ with hinfodef
          refine ⟨hbed, hbath, hpt, ⟨q, hq, ?_⟩, ⟨m, hm, himg⟩, ?_⟩
          · show info.path.map (fun s => siteOrigin ++ s) = some (siteOrigin ++ q)
            rw [hpath]
            rfl
          · refine ⟨info.ph, info.freq, ?_, rfl, rfl⟩
            rw [← hpub, ← hadv]
            exact hph

def c3wUnit : RawUnit :=
  { media := some { images := none, hasBrochure := none, brochure := none },
    price := some "€9", seoFriendlyPath := some "/w1",
    ber := some { rating := some (some "B") } }

def c3wPrs : RawPrs := { tagLinePresent := true, subUnits := some [c3wUnit] }

def c3wL : RawListing :=
  { seoFriendlyPath := some "/wdev", title := some "W", seoTitle := some "w",
    price := some "€1", ber := some { rating := none }, prs := some c3wPrs }

def c3wItem : RawItem := { listing := some c3wL }

/-- The single Listing that normalizing `c3wItem` emits. -/
def c3wListing : RealEstate :=
  { title := "W", seo_title := "w", publish_date := none, property_type := none,
    price_history := [{ price := some 9, timestamp := none, current := true,
                        source := some "daft", currency := some "€", category := none }],
    seller := some {}, real_estate_images := [], category := none,
    url := some "https://www.daft.ie/w1", date_of_construction := none, about := none,
    sold := false, advert_type := none,
    ber := some { rating := some "B", code := none, epi := none },
    address := none, brochure := none, offers := none, bedrooms := none, bathrooms := none,
    size_sq_m := none, floor_area_sq_m := none, rent_payment_frequency := some "month",
    developer_name := some "" }

def c3wResidual : RawItem := { listing := some { prs := some ({} : RawPrs) } }

/-- Witness for C3: the fan-out theorem applied at a one-unit record. -/
theorem claimC3_witness : ([c3wListing] : List RealEstate).length = [c3wUnit].length := by
  have hok : processRecord geoNone [] c3wItem =
      .ok ([c3wListing], ["https://www.daft.ie/wdev"], c3wResidual) := by decide
  exact (claimC3_prs_fanout geoNone [] c3wItem [c3wListing] ["https://www.daft.ie/wdev"]
    c3wResidual c3wL c3wPrs [c3wUnit] "/wdev" "W" "w" rfl rfl rfl rfl rfl rfl
    (by decide) hok).1

def c3cUnitA : RawUnit :=
  { media := some { images := none, hasBrochure := none, brochure := none },
    price := some "€1", seoFriendlyPath := some "/a1",
    ber := some { rating := some (some "A1") } }

def c3cUnitB : RawUnit :=
  { media := some { images := none, hasBrochure := none, brochure := none },
    price := some "€1", seoFriendlyPath := some "/b2",
    ber := some { rating := some (some "B2") } }

def c3cItem : RawItem :=
  { listing := some { seoFriendlyPath := some "/dev-2", title := some "D2",
                      seoTitle := some "d2", price := some "€5",
                      ber := some { rating := some "C" },
                      prs := some { tagLinePresent := true,
                                    subUnits := some [c3cUnitA, c3cUnitB] } } }

/-- Counterexample for C3 as stated: the first sub-unit's own `ber.rating` is
`"A1"`, yet both emitted Listings carry `"B2"` — the parent's single mutable
`Ber`, last assigned from the second unit — so a Listing does *not* take its
energy rating from its own sub-unit. -/
theorem claimC3_counterexample :
    (DaftRealEstateParser.get_real_estates geoNone [("rent", [c3cItem])]).map
      (fun r => r.1.map (fun x => x.ber.map Ber.rating)) =
      .ok [some (some "B2"), some (some "B2")] ∧
    c3cUnitA.ber = some { rating := some (some "A1") } := by
  refine ⟨by decide, rfl⟩

/-! ## The C1 grammar lemmas -/

theorem takeWhile_append_all (p : Char → Bool) (l₁ l₂ : List Char)
    (h : ∀ c ∈ l₁, p c = true) :
    (l₁ ++ l₂).takeWhile p = l₁ ++ l₂.takeWhile p := by
  induction l₁ with
  | nil => rfl
  | cons a l ih =>
    rw [List.cons_append, List.takeWhile_cons, h a (List.mem_cons_self a l), if_pos rfl,
      ih (fun c hc => h c (List.mem_cons_of_mem a hc))]
    rfl

theorem dropWhile_append_all (p : Char → Bool) (l₁ l₂ : List Char)
    (h : ∀ c ∈ l₁, p c = true) :
    (l₁ ++ l₂).dropWhile p = l₂.dropWhile p := by
  induction l₁ with
  | nil => rfl
  | cons a l ih =>
    rw [List.cons_append, List.dropWhile_cons, h a (List.mem_cons_self a l), if_pos rfl]
    exact ih (fun c hc => h c (List.mem_cons_of_mem a hc))

theorem dropWhile_eq_self_of_takeWhile_nil (p : Char → Bool) (l : List Char)
    (h : l.takeWhile p = []) : l.dropWhile p = l := by
  cases l with
  | nil => rfl
  | cons a l2 =>
    rw [List.takeWhile_cons] at h
    rw [List.dropWhile_cons]
    by_cases hp : p a = true
    · rw [hp] at h
      exact absurd h (by simp)
    · simp only [Bool.not_eq_true] at hp
      rw [hp]
      simp

theorem any_eq_false_all (p : Char → Bool) (l : List Char) (h : ∀ x ∈ l, p x = false) :
    l.any p = false := by
  induction l with
  | nil => rfl
  | cons a l2 ih =>
    rw [List.any_cons, h a (List.mem_cons_self a l2), Bool.false_or]
    exact ih (fun c hc => h c (List.mem_cons_of_mem a hc))

/-- A digit character is none of the special characters the regexes test. -/
theorem digit_ne (d : Char) (hd : d.isDigit = true) (c : Char) (hc : c.isDigit = false) :
    d ≠ c := by
  intro he
  rw [he, hc] at hd
  exact Bool.false_ne_true hd

theorem digit_not_sym (d : Char) (hd : d.isDigit = true) :
    (decide (d = '€') || decide (d = '£')) = false := by
  rw [decide_eq_false (digit_ne d hd '€' (by decide)),
    decide_eq_false (digit_ne d hd '£' (by decide))]
  rfl

theorem digit_not_space (d : Char) (hd : d.isDigit = true) : isPySpace d = false := by
  unfold isPySpace
  rw [decide_eq_false (digit_ne d hd ' ' (by decide)),
    decide_eq_false (digit_ne d hd '\t' (by decide)),
    decide_eq_false (digit_ne d hd '\n' (by decide)),
    decide_eq_false (digit_ne d hd '\r' (by decide)),
    decide_eq_false (digit_ne d hd (Char.ofNat 11) (by decide)),
    decide_eq_false (digit_ne d hd (Char.ofNat 12) (by decide))]
  rfl

/-- Evaluation of `matchAmount` on a digit head, a digit/comma run, and a rest that starts
with neither a digit/comma nor a dot. -/
theorem matchAmount_digits (d : Char) (ds rest : List Char) (hd : d.isDigit = true)
    (hds : ∀ c ∈ ds, digitOrComma c = true)
    (hr1 : rest.takeWhile digitOrComma = [])
    (hdot : ∀ r2, rest ≠ '.' :: r2) :
    matchAmount (d :: (ds ++ rest)) = some (d :: ds, rest) := by
  simp only [matchAmount]
  rw [hd, if_pos rfl]
  rw [takeWhile_append_all digitOrComma ds rest hds, hr1, List.append_nil,
    dropWhile_append_all digitOrComma ds rest hds,
    dropWhile_eq_self_of_takeWhile_nil digitOrComma rest hr1]
  cases rest with
  | nil => rfl
  | cons r rs =>
    have hr : r ≠ '.' := fun h => hdot rs (by rw [h])
    split
    · rename_i heq
      exact absurd (List.head_eq_of_cons_eq heq.symm) (Ne.symm hr)
    · rfl

def symPart : Option Char → List Char
  | some c => [c]
  | none => []

def sufPart : Option String → List Char
  | none => []
  | some u => ' ' :: 'p' :: 'e' :: 'r' :: ' ' :: u.toList

theorem matchHeadline_on_grammar (sym : Option Char) (d : Char) (ds : List Char)
    (suffix : Option String)
    (hsym : sym = none ∨ sym = some '€' ∨ sym = some '£')
    (hsuf : suffix = none ∨ suffix = some "month" ∨ suffix = some "week")
    (hd : d.isDigit = true)
    (hds : ∀ c ∈ ds, digitOrComma c = true) :
    matchHeadline (symPart sym ++ (d :: ds) ++ sufPart suffix) =
      some (sym, d :: ds, suffix.map (fun u => u.toList)) := by
  have hsufTake : (sufPart suffix).takeWhile digitOrComma = [] := by
    rcases hsuf with rfl | rfl | rfl <;> rfl
  have hsufDot : ∀ r2, sufPart suffix ≠ '.' :: r2 := by
    rcases hsuf with rfl | rfl | rfl <;> intro r2 <;> simp [sufPart]
  have hfreq : matchFreq ((sufPart suffix).dropWhile isPySpace) =
      suffix.map (fun u => u.toList) := by
    rcases hsuf with rfl | rfl | rfl <;> rfl
  have hamt := matchAmount_digits d ds (sufPart suffix) hd hds hsufTake hsufDot
  have hdsp := digit_not_space d hd
  rcases hsym with rfl | rfl | rfl
  · show matchHeadline (d :: (ds ++ sufPart suffix)) = _
    unfold matchHeadline
    simp only [digit_not_sym d hd, Bool.false_eq_true, if_false, List.dropWhile_cons, hdsp,
      hamt, hfreq]
  · show matchHeadline ('€' :: (d :: (ds ++ sufPart suffix))) = _
    unfold matchHeadline
    simp [hamt, hfreq, hdsp]
  · show matchHeadline ('£' :: (d :: (ds ++ sufPart suffix))) = _
    unfold matchHeadline
    simp [hamt, hfreq, hdsp]

theorem parse_price_on_grammar (s : String) (sym : Option Char) (d : Char) (ds : List Char)
    (suffix : Option String)
    (hsym : sym = none ∨ sym = some '€' ∨ sym = some '£')
    (hsuf : suffix = none ∨ suffix = some "month" ∨ suffix = some "week")
    (hd : d.isDigit = true)
    (hds : ∀ c ∈ ds, digitOrComma c = true)
    (hshape : replaceAll amvPat [] (replaceAll fromPat [] (pyStrip s.toList)) =
      symPart sym ++ (d :: ds) ++ sufPart suffix)
    (hpoa1 : containsSub poaLongPat (symPart sym ++ (d :: ds) ++ sufPart suffix) = false)
    (hpoa2 : containsSub poaShortPat (symPart sym ++ (d :: ds) ++ sufPart suffix) = false) :
    DaftRealEstateParser.parse_price s =
      .ok ⟨some (natOfDigits ((d :: ds).filter (fun c => c ≠ ','))),
           some (suffix.getD "month"),
           some ((sym.map toString).getD "€")⟩ := by
  have hdot : (d :: ds).any (fun c => decide (c = '.')) = false := by
    refine any_eq_false_all _ _ ?_
    intro x hx
    rcases List.mem_cons.mp hx with rfl | hx2
    · exact decide_eq_false (digit_ne x hd '.' (by decide))
    · refine decide_eq_false ?_
      intro hcon
      have := hds x hx2
      rw [hcon] at this
      exact absurd this (by decide)
  have hmh := matchHeadline_on_grammar sym d ds suffix hsym hsuf hd hds
  unfold DaftRealEstateParser.parse_price
  simp only [hshape, hpoa1, hpoa2, Bool.or_self, Bool.false_eq_true, if_false, hmh, hdot]
  rcases hsuf with rfl | rfl | rfl <;> rfl

/-- The text the headline regex runs on: the stripped input with every
occurrence of `"From "` and `"AMV: "` removed. -/
def strippedPrice (s : String) : List Char :=
  replaceAll amvPat [] (replaceAll fromPat [] (pyStrip s.toList))

/-- Claim C1 (amended): `parse_price` strips whitespace and removes *every*
occurrence of `"From "` and `"AMV: "` (not only a leading prefix); if the
remaining text contains `"Price on Application"` or `"POA"` all three fields
are null; if the regex finds no match all three fields are null; and a text
of the shape optional €/£ symbol, digit-led digits-and-commas amount (no
decimal part), and optional `" per month"`/`" per week"` suffix yields the
numeric amount with currency defaulting to `€` and frequency defaulting to
`"month"`; including the four examples of the claim. -/
theorem claimC1_parse_price_amended :
    (∀ s : String,
      containsSub poaLongPat (strippedPrice s) = true ∨
        containsSub poaShortPat (strippedPrice s) = true →
      DaftRealEstateParser.parse_price s = .ok ⟨none, none, none⟩) ∧
    (∀ s : String, matchHeadline (strippedPrice s) = none →
      DaftRealEstateParser.parse_price s = .ok ⟨none, none, none⟩) ∧
    (∀ (s : String) (sym : Option Char) (d : Char) (ds : List Char) (suffix : Option String),
      (sym = none ∨ sym = some '€' ∨ sym = some '£') →
      (suffix = none ∨ suffix = some "month" ∨ suffix = some "week") →
      d.isDigit = true →
      (∀ c ∈ ds, digitOrComma c = true) →
      strippedPrice s = symPart sym ++ (d :: ds) ++ sufPart suffix →
      containsSub poaLongPat (symPart sym ++ (d :: ds) ++ sufPart suffix) = false →
      containsSub poaShortPat (symPart sym ++ (d :: ds) ++ sufPart suffix) = false →
      DaftRealEstateParser.parse_price s =
        .ok ⟨some (natOfDigits ((d :: ds).filter (fun c => c ≠ ','))),
             some (suffix.getD "month"), some ((sym.map toString).getD "€")⟩) ∧
    DaftRealEstateParser.parse_price "€1,200 per month" =
      .ok ⟨some 1200, some "month", some "€"⟩ ∧
    DaftRealEstateParser.parse_price "From €1,000" = .ok ⟨some 1000, some "month", some "€"⟩ ∧
    DaftRealEstateParser.parse_price "AMV: €250,000" =
      .ok ⟨some 250000, some "month", some "€"⟩ ∧
    DaftRealEstateParser.parse_price "POA" = .ok ⟨none, none, none⟩ ∧
    DaftRealEstateParser.parse_price "Price on Application" = .ok ⟨none, none, none⟩ ∧
    DaftRealEstateParser.parse_price "sale agreed" = .ok ⟨none, none, none⟩ := by
  refine ⟨?_, ?_, ?_, by decide, by decide, by decide, by decide, by decide, by decide⟩
  · intro s hp
    simp only [DaftRealEstateParser.parse_price]
    rcases hp with h | h
    · have h2 : containsSub poaLongPat
          (replaceAll amvPat [] (replaceAll fromPat [] (pyStrip s.toList))) = true := h
      rw [h2, Bool.true_or, if_pos rfl]
    · have h2 : containsSub poaShortPat
          (replaceAll amvPat [] (replaceAll fromPat [] (pyStrip s.toList))) = true := h
      rw [h2, Bool.or_true, if_pos rfl]
  · intro s h
    have h2 : matchHeadline
        (replaceAll amvPat [] (replaceAll fromPat [] (pyStrip s.toList))) = none := h
    simp only [DaftRealEstateParser.parse_price]
    cases hcond : containsSub poaLongPat
        (replaceAll amvPat [] (replaceAll fromPat [] (pyStrip s.toList))) ||
        containsSub poaShortPat
          (replaceAll amvPat [] (replaceAll fromPat [] (pyStrip s.toList)))
    · rw [if_neg (by simp), h2]
    · rw [if_pos rfl]
  · intro s sym d ds suffix h1 h2 h3 h4 h5 h6 h7
    exact parse_price_on_grammar s sym d ds suffix h1 h2 h3 h4 h5 h6 h7

/-- Witness for C1: the grammar clause applied at `"£3,500 per week"`. -/
theorem claimC1_witness :
    DaftRealEstateParser.parse_price "£3,500 per week" =
      .ok ⟨some 3500, some "week", some "£"⟩ := by
  have h := claimC1_parse_price_amended.2.2.1 "£3,500 per week" (some '£') '3'
    [',', '5', '0', '0'] (some "week") (Or.inr (Or.inr rfl)) (Or.inr (Or.inr rfl))
    (by decide) (by decide) (by decide) (by decide) (by decide)
  exact h.trans (by decide)

/-- Counterexample for C1 as stated: `str.replace` removes `"From "`
*everywhere*, not only as a leading prefix.  On `"€1,200 per From week"` the
code sees `"€1,200 per week"` (frequency `"week"`), while the claim's
leading-prefix reading leaves the text unchanged, matches no suffix, and
defaults the frequency to `"month"`. -/
theorem claimC1_counterexample :
    DaftRealEstateParser.parse_price "€1,200 per From week" =
      .ok ⟨some 1200, some "week", some "€"⟩ ∧
    parse_price_claimC1 "€1,200 per From week" =
      .ok ⟨some 1200, some "month", some "€"⟩ ∧
    DaftRealEstateParser.parse_price "€1,200 per From week" ≠
      parse_price_claimC1 "€1,200 per From week" := by
  refine ⟨by decide, by decide, by decide⟩
